import Mathlib

/-!
# smol-multisig — verification of the spec's claims against the TypeScript sources

Shallow embedding of the repository's byte-level code:

* `createMultiSigTxHash` — the digest builder, identical in
  `tests/stateless_multisig.ts` and `tests/secp256k1-multisig.ts`;
* `BatchEd25519Signer.createVerifySignaturesInstruction` / `parseBuffer`
  (`utils/ed25519.ts`);
* `BatchSecp256k1Signer.sign` / `createVerifySignaturesInstruction` /
  `parseBuffer` (`utils/secp256k1.ts`).

Byte buffers are `List Nat` (each element a byte value).  Node.js `Buffer`
write/read operations that throw `ERR_OUT_OF_RANGE` are modelled as
`Option`-returning operations (`none` = the thrown exception);
`Buffer.subarray`, which clamps silently, is modelled as a total function.
External cryptographic libraries (keccak-256 from `js-sha3`/`@noble/hashes`,
ECDSA from `ethers`) are abstracted as function parameters, since the spec
treats them as external collaborators; all layout facts are proved for every
choice of those functions.  The on-chain execute program is not part of the
TypeScript sources; its verifier state machine is modelled from the spec
(see `execute` below).
-/

set_option linter.unnecessarySimpa false
set_option linter.unusedVariables false
set_option linter.unusedTactic false
set_option linter.unreachableTactic false
set_option linter.unnecessarySeqFocus false
set_option maxHeartbeats 1000000
set_option maxRecDepth 8000

namespace SmolMultisig

/-! ## Byte-buffer model (Node.js `Buffer` semantics) -/

/-- In-place write of `src` into `buf` starting at byte `off`
(`TypedArray.prototype.set` / the committed effect of the `Buffer.write*`
family).  Only used under the bounds guard `off + src.length ≤ buf.length`,
where it replaces exactly the bytes `off .. off + src.length - 1`. -/
def overwrite (buf : List Nat) (off : Nat) (src : List Nat) : List Nat :=
  buf.take off ++ src ++ buf.drop (off + src.length)

/-- `Buffer.writeUInt8(v, off)`: throws (`none`) when the value exceeds one
byte or the offset is out of bounds. -/
def writeUInt8 (buf : List Nat) (v off : Nat) : Option (List Nat) :=
  if v ≤ 255 ∧ off + 1 ≤ buf.length then some (overwrite buf off [v]) else none

/-- `Buffer.writeUInt16LE(v, off)`: little-endian two-byte write; throws
(`none`) when the value exceeds `0xffff` or the offset is out of bounds. -/
def writeUInt16LE (buf : List Nat) (v off : Nat) : Option (List Nat) :=
  if v ≤ 65535 ∧ off + 2 ≤ buf.length then
    some (overwrite buf off [v % 256, v / 256 % 256])
  else none

/-- `buf.set(src, off)` (`TypedArray.prototype.set`): throws (`none`) when
the source does not fit. -/
def bufSet (buf : List Nat) (src : List Nat) (off : Nat) : Option (List Nat) :=
  if off + src.length ≤ buf.length then some (overwrite buf off src) else none

/-- `Buffer.readUInt8(off)`: throws (`none`) out of bounds. -/
def readUInt8 (buf : List Nat) (off : Nat) : Option Nat :=
  buf[off]?

/-- `Buffer.readUInt16LE(off)`: throws (`none`) out of bounds. -/
def readUInt16LE (buf : List Nat) (off : Nat) : Option Nat := do
  let lo ← buf[off]?
  let hi ← buf[off + 1]?
  pure (lo + 256 * hi)

/-- `Buffer.subarray(s, e)`: clamping slice — never throws, silently
returns the in-range portion. -/
def subarray (buf : List Nat) (s e : Nat) : List Nat :=
  (buf.take e).drop s

/-- The two little-endian bytes of a 16-bit value, as the buffer stores
them. -/
def u16le (v : Nat) : List Nat := [v % 256, v / 256 % 256]

/-! ## Digest builder (`createMultiSigTxHash`)

The function below is textually identical in `tests/stateless_multisig.ts`
and `tests/secp256k1-multisig.ts`; it is embedded once.  Public keys are
byte lists (`PublicKey.toBytes()` yields 32 bytes); the keccak-256 hash from
`js-sha3` is an external library, abstracted as the parameter `keccak`. -/

/-- An account-meta triple, the tests' `TransactionAccount`. -/
structure TransactionAccount where
  pubkey : List Nat
  isSigner : Bool
  isWritable : Bool
deriving DecidableEq, Repr

/-- `numberToLEBytes(num)` — `Buffer.writeBigUInt64LE`: the nonce as 8
little-endian bytes (byte `i` is `num / 256^i % 256`). -/
def numberToLEBytes (num : Nat) : List Nat :=
  (List.range 8).map fun i => num / 256 ^ i % 256

/-- `createMultiSigTxHash(multisigPda, nonce, accounts, data, program)`:
push the PDA bytes, the LE nonce, each account's (pubkey, isSigner,
isWritable) triple, the program id and the raw data into a payload list,
concatenate (`Buffer.concat`), and hash with keccak-256. -/
def createMultiSigTxHash (keccak : List Nat → List Nat)
    (multisigPda : List Nat) (nonce : Nat)
    (accounts : List TransactionAccount) (data : List Nat)
    (program : List Nat) : List Nat :=
  let payload : List (List Nat) :=
    [multisigPda, numberToLEBytes nonce]
      ++ (accounts.map fun account =>
            [account.pubkey,
             [if account.isSigner then 1 else 0],
             [if account.isWritable then 1 else 0]]).flatten
      ++ [program, data]
  keccak payload.flatten

/-- The digest preimage as §6 of the spec words it: authority bytes, 8 LE
nonce bytes, per-account `identity ∥ is_signer ∥ is_writable`, target
program bytes, then the raw instruction data — one flat concatenation with
no length prefixes. -/
def digestPreimageSpec (multisigPda : List Nat) (nonce : Nat)
    (accounts : List TransactionAccount) (data : List Nat)
    (program : List Nat) : List Nat :=
  multisigPda
    ++ [nonce % 256, nonce / 256 % 256, nonce / 256 ^ 2 % 256,
        nonce / 256 ^ 3 % 256, nonce / 256 ^ 4 % 256, nonce / 256 ^ 5 % 256,
        nonce / 256 ^ 6 % 256, nonce / 256 ^ 7 % 256]
    ++ (accounts.map fun account =>
          account.pubkey
            ++ [if account.isSigner then 1 else 0]
            ++ [if account.isWritable then 1 else 0]).flatten
    ++ program
    ++ data

/-! ## `BatchEd25519Signer` (`utils/ed25519.ts`) -/

/-- The encoder's per-entry input (`Ed25519SignatureVerifyParams`). -/
structure Ed25519SignatureVerifyParams where
  publicKey : List Nat
  message : List Nat
  signature : List Nat
deriving DecidableEq, Repr

/-- The first `for` loop of `createVerifySignaturesInstruction`: one
14-byte header row per entry, seven `writeUInt16LE`s each, instruction
indexes fixed at `MaxU16 = 0xffff`; the three data cursors advance by 64,
32 and the message length. -/
def writeEdHeaders : List Nat → Nat → Nat → Nat → Nat →
    List Ed25519SignatureVerifyParams → Option (List Nat)
  | buf, _, _, _, _, [] => some buf
  | buf, headerOffset, sigOff, pubOff, msgOff, p :: rest => do
      let buf ← writeUInt16LE buf sigOff headerOffset
      let buf ← writeUInt16LE buf 65535 (headerOffset + 2)
      let buf ← writeUInt16LE buf pubOff (headerOffset + 4)
      let buf ← writeUInt16LE buf 65535 (headerOffset + 6)
      let buf ← writeUInt16LE buf msgOff (headerOffset + 8)
      let buf ← writeUInt16LE buf p.message.length (headerOffset + 10)
      let buf ← writeUInt16LE buf 65535 (headerOffset + 12)
      writeEdHeaders buf (headerOffset + 14) (sigOff + 64) (pubOff + 32)
        (msgOff + p.message.length) rest

/-- The second `for` loop: `set` the signature, public key and message of
each entry at the three advancing cursors. -/
def writeEdData : List Nat → Nat → Nat → Nat →
    List Ed25519SignatureVerifyParams → Option (List Nat)
  | buf, _, _, _, [] => some buf
  | buf, sigOff, pubOff, msgOff, p :: rest => do
      let buf ← bufSet buf p.signature sigOff
      let buf ← bufSet buf p.publicKey pubOff
      let buf ← bufSet buf p.message msgOff
      writeEdData buf (sigOff + 64) (pubOff + 32) (msgOff + p.message.length) rest

/-- `BatchEd25519Signer.createVerifySignaturesInstruction`: allocate
`headerSize + 64·N + 32·N + Σ|mᵢ|` zero bytes, write the count byte and the
padding byte, then the header rows, then the data section. -/
def ed25519CreateVerifySignaturesInstruction
    (params : List Ed25519SignatureVerifyParams) : Option (List Nat) :=
  let headerSize := 2 + 14 * params.length
  let dataStart := headerSize
  let signaturesSize := params.length * 64
  let publicKeysSize := params.length * 32
  let messagesSize := (params.map fun p => p.message.length).sum
  let totalSize := headerSize + signaturesSize + publicKeysSize + messagesSize
  do
    let instructionData := List.replicate totalSize 0
    let instructionData ← writeUInt8 instructionData params.length 0
    let instructionData ← writeUInt8 instructionData 0 1
    let instructionData ← writeEdHeaders instructionData 2 dataStart
      (dataStart + signaturesSize) (dataStart + signaturesSize + publicKeysSize) params
    writeEdData instructionData dataStart (dataStart + signaturesSize)
      (dataStart + signaturesSize + publicKeysSize) params

/-- A decoded 14-byte header row of the native-curve payload. -/
structure Ed25519Header where
  sigOffset : Nat
  sigInstIdx : Nat
  pubOffset : Nat
  pubInstIdx : Nat
  msgOffset : Nat
  msgSize : Nat
  msgInstIdx : Nat
deriving DecidableEq, Repr

/-- The 14 bytes of one header row, fields little-endian in source order. -/
def edHeaderBytes (h : Ed25519Header) : List Nat :=
  u16le h.sigOffset ++ u16le h.sigInstIdx ++ u16le h.pubOffset
    ++ u16le h.pubInstIdx ++ u16le h.msgOffset ++ u16le h.msgSize
    ++ u16le h.msgInstIdx

/-- Header rows generated from the three advancing cursors, exactly the
values the encoder's first loop writes. -/
def edHeadersFrom : Nat → Nat → Nat →
    List Ed25519SignatureVerifyParams → List Ed25519Header
  | _, _, _, [] => []
  | s, p, m, e :: rest =>
      ⟨s, 65535, p, 65535, m, e.message.length, 65535⟩
        :: edHeadersFrom (s + 64) (p + 32) (m + e.message.length) rest

/-- Start of the data section: `2 + 14·N` (count, padding, header rows). -/
def edDataStart (params : List Ed25519SignatureVerifyParams) : Nat :=
  2 + 14 * params.length

/-- Start of the public-key block: data start plus `64·N` signature bytes. -/
def edPubStart (params : List Ed25519SignatureVerifyParams) : Nat :=
  edDataStart params + 64 * params.length

/-- Start of the message block: public-key start plus `32·N` key bytes. -/
def edMsgStart (params : List Ed25519SignatureVerifyParams) : Nat :=
  edPubStart params + 32 * params.length

/-- Total size of the encoded native-curve payload. -/
def edTotalSize (params : List Ed25519SignatureVerifyParams) : Nat :=
  edMsgStart params + (params.map fun p => p.message.length).sum

/-- The header rows of the encoded payload. -/
def edHeaders (params : List Ed25519SignatureVerifyParams) : List Ed25519Header :=
  edHeadersFrom (edDataStart params) (edPubStart params) (edMsgStart params) params

/-- The native-curve payload written out as one explicit concatenation:
count byte, zero padding byte, the header rows, then all signatures, all
public keys, all messages, grouped by field. -/
def edEncodedSpec (params : List Ed25519SignatureVerifyParams) : List Nat :=
  [params.length, 0]
    ++ ((edHeaders params).map edHeaderBytes).flatten
    ++ (params.map fun p => p.signature).flatten
    ++ (params.map fun p => p.publicKey).flatten
    ++ (params.map fun p => p.message).flatten

/-- Well-formed encoder input: each signature 64 bytes, each key 32 bytes,
at most 255 entries (one count byte) and a payload small enough that every
offset and message length fits `u16`. -/
def edWellFormed (params : List Ed25519SignatureVerifyParams) : Prop :=
  (∀ p ∈ params, p.signature.length = 64)
    ∧ (∀ p ∈ params, p.publicKey.length = 32)
    ∧ params.length ≤ 255
    ∧ edTotalSize params ≤ 65535

/-- One entry of `parseBuffer`'s `data` array: the byte ranges the parser
slices out (the source renders them as hex strings with `formatHex`). -/
structure Ed25519ParsedEntry where
  signature : List Nat
  publicKey : List Nat
  message : List Nat
deriving DecidableEq, Repr

/-- The result object of `BatchEd25519Signer.parseBuffer`. -/
structure Ed25519ParseResult where
  numSignatures : Nat
  padding : Nat
  remainingHeaders : List Ed25519Header
  data : List Ed25519ParsedEntry
deriving DecidableEq, Repr

/-- One iteration of `parseBuffer`'s header loop: seven `readUInt16LE`s at
`base .. base+12`. -/
def readEdHeader (buf : List Nat) (base : Nat) : Option Ed25519Header := do
  let sigOffset ← readUInt16LE buf base
  let sigInstIdx ← readUInt16LE buf (base + 2)
  let pubOffset ← readUInt16LE buf (base + 4)
  let pubInstIdx ← readUInt16LE buf (base + 6)
  let msgOffset ← readUInt16LE buf (base + 8)
  let msgSize ← readUInt16LE buf (base + 10)
  let msgInstIdx ← readUInt16LE buf (base + 12)
  pure ⟨sigOffset, sigInstIdx, pubOffset, pubInstIdx, msgOffset, msgSize, msgInstIdx⟩

/-- `parseBuffer`'s header loop: `numSignatures` rows at
`base = 2 + 14·i`. -/
def readEdHeaders (buf : List Nat) : Nat → Nat → Option (List Ed25519Header)
  | _, 0 => some []
  | base, Nat.succ k => do
      let h ← readEdHeader buf base
      let rest ← readEdHeaders buf (base + 14) k
      pure (h :: rest)

/-- `parseBuffer`'s data extraction for one header: three `subarray`
slices (clamping, never failing). -/
def ed25519ExtractEntry (buf : List Nat) (h : Ed25519Header) : Ed25519ParsedEntry :=
  ⟨subarray buf h.sigOffset (h.sigOffset + 64),
   subarray buf h.pubOffset (h.pubOffset + 32),
   subarray buf h.msgOffset (h.msgOffset + h.msgSize)⟩

/-- `BatchEd25519Signer.parseBuffer`: count byte, padding byte, header
rows, then per-header `subarray` slices of the data section. -/
def ed25519ParseBuffer (buf : List Nat) : Option Ed25519ParseResult := do
  let numSignatures ← readUInt8 buf 0
  let padding ← readUInt8 buf 1
  let headers ← readEdHeaders buf 2 numSignatures
  pure ⟨numSignatures, padding, headers, headers.map (ed25519ExtractEntry buf)⟩

/-! ## `BatchSecp256k1Signer` (`utils/secp256k1.ts`) -/

/-- The encoder's per-entry input (`Secp256k1SignatureVerifyParams`).  The
source accepts the address as a hex string or raw bytes; the string branch
normalizes through ethers' `getAddress` and strips `0x`, always yielding
the 20 raw bytes modelled here. -/
structure Secp256k1SignatureVerifyParams where
  ethAddress : List Nat
  message : List Nat
  signature : List Nat
  recoveryId : Nat
deriving DecidableEq, Repr

/-- The single `forEach` of the secp encoder: for entry `i`, the 11-byte
header row at `1 + 11·i` (u16 offsets, u8 instruction indexes fixed at 0),
then the 20 address bytes, the 64 signature bytes plus the recovery-id
byte, and the message bytes at the three advancing data cursors. -/
def writeSecpEntries : List Nat → Nat → Nat → Nat → Nat →
    List Secp256k1SignatureVerifyParams → Option (List Nat)
  | buf, _, _, _, _, [] => some buf
  | buf, headerStart, addrOff, sigOff, msgOff, p :: rest => do
      let buf ← writeUInt16LE buf sigOff headerStart
      let buf ← writeUInt8 buf 0 (headerStart + 2)
      let buf ← writeUInt16LE buf addrOff (headerStart + 3)
      let buf ← writeUInt8 buf 0 (headerStart + 5)
      let buf ← writeUInt16LE buf msgOff (headerStart + 6)
      let buf ← writeUInt16LE buf p.message.length (headerStart + 8)
      let buf ← writeUInt8 buf 0 (headerStart + 10)
      let buf ← bufSet buf p.ethAddress addrOff
      let buf ← bufSet buf p.signature sigOff
      let buf ← writeUInt8 buf p.recoveryId (sigOff + 64)
      let buf ← bufSet buf p.message msgOff
      writeSecpEntries buf (headerStart + 11) (addrOff + 20) (sigOff + 65)
        (msgOff + p.message.length) rest

/-- `BatchSecp256k1Signer.createVerifySignaturesInstruction`: allocate
`1 + 11·N + 20·N + 65·N + Σ|mᵢ|` zero bytes, write the count byte (no
padding byte), then the per-entry headers and data. -/
def secpCreateVerifySignaturesInstruction
    (params : List Secp256k1SignatureVerifyParams) : Option (List Nat) :=
  let offsetsLength := params.length * 11
  let dataStart := 1 + offsetsLength
  let signaturesSize := params.length * (64 + 1)
  let addressesSize := params.length * 20
  let messagesSize := (params.map fun p => p.message.length).sum
  do
    let instructionData :=
      List.replicate (dataStart + addressesSize + signaturesSize + messagesSize) 0
    let instructionData ← writeUInt8 instructionData params.length 0
    writeSecpEntries instructionData 1 dataStart (dataStart + addressesSize)
      (dataStart + addressesSize + signaturesSize) params

/-- A decoded 11-byte header row of the secp payload
(`Secp256k1SignatureOffsets`). -/
structure SecpHeader where
  sigOffset : Nat
  sigInstIdx : Nat
  addrOffset : Nat
  addrInstIdx : Nat
  msgOffset : Nat
  msgSize : Nat
  msgInstIdx : Nat
deriving DecidableEq, Repr

/-- The 11 bytes of one secp header row: u16 offsets, u8 instruction
indexes, in source order. -/
def secpHeaderBytes (h : SecpHeader) : List Nat :=
  u16le h.sigOffset ++ [h.sigInstIdx] ++ u16le h.addrOffset ++ [h.addrInstIdx]
    ++ u16le h.msgOffset ++ u16le h.msgSize ++ [h.msgInstIdx]

/-- Secp header rows generated from the three advancing cursors. -/
def secpHeadersFrom : Nat → Nat → Nat →
    List Secp256k1SignatureVerifyParams → List SecpHeader
  | _, _, _, [] => []
  | a, s, m, e :: rest =>
      ⟨s, 0, a, 0, m, e.message.length, 0⟩
        :: secpHeadersFrom (a + 20) (s + 65) (m + e.message.length) rest

/-- Start of the address block: `1 + 11·N`. -/
def secpAddrStart (params : List Secp256k1SignatureVerifyParams) : Nat :=
  1 + 11 * params.length

/-- Start of the signature+recovery block: address start plus `20·N`. -/
def secpSigStart (params : List Secp256k1SignatureVerifyParams) : Nat :=
  secpAddrStart params + 20 * params.length

/-- Start of the message block: signature start plus `65·N`. -/
def secpMsgStart (params : List Secp256k1SignatureVerifyParams) : Nat :=
  secpSigStart params + 65 * params.length

/-- Total size of the encoded secp payload. -/
def secpTotalSize (params : List Secp256k1SignatureVerifyParams) : Nat :=
  secpMsgStart params + (params.map fun p => p.message.length).sum

/-- The header rows of the encoded secp payload. -/
def secpHeaders (params : List Secp256k1SignatureVerifyParams) : List SecpHeader :=
  secpHeadersFrom (secpAddrStart params) (secpSigStart params) (secpMsgStart params) params

/-- The secp payload as one explicit concatenation: count byte, header
rows, then all addresses, all signature+recovery blocks, all messages. -/
def secpEncodedSpec (params : List Secp256k1SignatureVerifyParams) : List Nat :=
  [params.length]
    ++ ((secpHeaders params).map secpHeaderBytes).flatten
    ++ (params.map fun p => p.ethAddress).flatten
    ++ (params.map fun p => p.signature ++ [p.recoveryId]).flatten
    ++ (params.map fun p => p.message).flatten

/-- Well-formed secp encoder input: 20-byte addresses, 64-byte signatures,
one-byte recovery ids, at most 255 entries, offsets within `u16`. -/
def secpWellFormed (params : List Secp256k1SignatureVerifyParams) : Prop :=
  (∀ p ∈ params, p.ethAddress.length = 20)
    ∧ (∀ p ∈ params, p.signature.length = 64)
    ∧ (∀ p ∈ params, p.recoveryId ≤ 255)
    ∧ params.length ≤ 255
    ∧ secpTotalSize params ≤ 65535

/-- One entry of the secp `parseBuffer`'s `data` array (the source renders
the byte fields as hex strings with `formatHex`). -/
structure SecpParsedEntry where
  signature : List Nat
  recoveryId : Nat
  ethAddress : List Nat
  message : List Nat
deriving DecidableEq, Repr

/-- The result object of `BatchSecp256k1Signer.parseBuffer`. -/
structure SecpParseResult where
  numSignatures : Nat
  remainingHeaders : List SecpHeader
  data : List SecpParsedEntry
deriving DecidableEq, Repr

/-- One iteration of the secp header loop: u16/u8 reads at
`base .. base+10`. -/
def readSecpHeader (buf : List Nat) (base : Nat) : Option SecpHeader := do
  let sigOffset ← readUInt16LE buf base
  let sigInstIdx ← readUInt8 buf (base + 2)
  let addrOffset ← readUInt16LE buf (base + 3)
  let addrInstIdx ← readUInt8 buf (base + 5)
  let msgOffset ← readUInt16LE buf (base + 6)
  let msgSize ← readUInt16LE buf (base + 8)
  let msgInstIdx ← readUInt8 buf (base + 10)
  pure ⟨sigOffset, sigInstIdx, addrOffset, addrInstIdx, msgOffset, msgSize, msgInstIdx⟩

/-- The secp header loop: `numSignatures` rows at `base = 1 + 11·i`. -/
def readSecpHeaders (buf : List Nat) : Nat → Nat → Option (List SecpHeader)
  | _, 0 => some []
  | base, Nat.succ k => do
      let h ← readSecpHeader buf base
      let rest ← readSecpHeaders buf (base + 11) k
      pure (h :: rest)

/-- Secp data extraction for one header: clamping `subarray` slices plus a
`readUInt8` of the recovery id, which can throw. -/
def secpExtractEntry (buf : List Nat) (h : SecpHeader) : Option SecpParsedEntry := do
  let recoveryId ← readUInt8 buf (h.sigOffset + 64)
  pure ⟨subarray buf h.sigOffset (h.sigOffset + 64), recoveryId,
        subarray buf h.addrOffset (h.addrOffset + 20),
        subarray buf h.msgOffset (h.msgOffset + h.msgSize)⟩

/-- The `headers.map` of the secp `parseBuffer`, whose body can throw on
the recovery-id read: the first failure aborts the whole parse. -/
def mapOrFail (f : SecpHeader → Option SecpParsedEntry) :
    List SecpHeader → Option (List SecpParsedEntry)
  | [] => some []
  | h :: rest => do
      let e ← f h
      let es ← mapOrFail f rest
      pure (e :: es)

/-- `BatchSecp256k1Signer.parseBuffer`. -/
def secpParseBuffer (buf : List Nat) : Option SecpParseResult := do
  let numSignatures ← readUInt8 buf 0
  let headers ← readSecpHeaders buf 1 numSignatures
  let data ← mapOrFail (secpExtractEntry buf) headers
  pure ⟨numSignatures, headers, data⟩

/-! ## Signature generation (`BatchSecp256k1Signer.sign` and
`signAndCreateVerifySignaturesInstruction`)

ethers' `SigningKey.sign` and the address derivation `new Wallet(key)
.address` are external cryptography, abstracted as parameters `ecdsaSign`
and `ethAddressOf`. -/

/-- An ethers ECDSA signature: 32-byte `r`, 32-byte `s` (hex fields in the
source, byte-decoded here) and the parity bit `yParity`. -/
structure EcdsaSig where
  r : List Nat
  s : List Nat
  yParity : Nat
deriving DecidableEq, Repr

/-- `BatchSecp256k1Signer.sign(message, privateKey)`: keccak-256 the
message, sign the hash, return `r ∥ s` as the 64-byte flat signature and
`yParity` as the separate recovery id. -/
def secpSign (keccak : List Nat → List Nat)
    (ecdsaSign : List Nat → List Nat → EcdsaSig)
    (message privateKey : List Nat) : List Nat × Nat :=
  let messageHash := keccak message
  let sig := ecdsaSign privateKey messageHash
  (sig.r ++ sig.s, sig.yParity)

/-- The per-entry input of `signAndCreateVerifySignaturesInstruction`. -/
structure Secp256k1SignAndVerifyParams where
  privateKey : List Nat
  message : List Nat
deriving DecidableEq, Repr

/-- `BatchSecp256k1Signer.signAndCreateVerifySignaturesInstruction`: sign
every message with its key, derive the 20-byte address from the key's
wallet, and encode the resulting entries. -/
def secpSignAndCreateVerifySignaturesInstruction
    (keccak : List Nat → List Nat)
    (ecdsaSign : List Nat → List Nat → EcdsaSig)
    (ethAddressOf : List Nat → List Nat)
    (params : List Secp256k1SignAndVerifyParams) : Option (List Nat) :=
  secpCreateVerifySignaturesInstruction
    (params.map fun item =>
      let signed := secpSign keccak ecdsaSign item.message item.privateKey
      ⟨ethAddressOf item.privateKey, item.message, signed.1, signed.2⟩)

/-! ## Execution verifier (modelled from the spec)

The on-chain Rust programs are not part of the repository sources here —
only their TypeScript tests are.  The records and the `execute` gate
sequence below are modelled from spec §3, §4.3 and §7 plus the error names
the tests assert (`ErrNonceTooOld`, `InvalidMessage`, `InvalidSigner`,
`InvalidMessageSigner`, `DuplicateSigner`, `ThresholdNotMet`,
`ConstraintSeeds`). -/

/-- Modelled from the spec: the persistent `MultiSigConfig` record (owner
identities, threshold, replay nonce, derived authority address). -/
structure MultiSigConfig where
  owners : List (List Nat)
  threshold : Nat
  nonce : Nat
  multisigPda : List Nat
deriving DecidableEq, Repr

/-- Modelled from the spec: the ephemeral execute request. -/
structure ExecuteParams where
  programId : List Nat
  accounts : List TransactionAccount
  data : List Nat
  signers : List (List Nat)
  nonce : Nat
deriving DecidableEq, Repr

/-- Modelled from the spec: the error taxonomy of §7, with the tags the
tests assert on. -/
inductive ExecError where
  | ConstraintSeeds
  | ErrNonceTooOld
  | InvalidMessage
  | InvalidSigner
  | InvalidMessageSigner
  | DuplicateSigner
  | ThresholdNotMet
  | MissingVerification
deriving DecidableEq, Repr

/-- Modelled from the spec: per-signer cross-validation (§4.3 step 5).
Each decoded (identity, message) entry must carry the recomputed digest,
be an owner, be fresh, and match the claimed signer at its position; the
result counts the distinct verified owner-signers. -/
def validateEntries (digest : List Nat) (owners : List (List Nat)) :
    List (List Nat × List Nat) → List (List Nat) → List (List Nat) →
    Except ExecError Nat
  | [], _, seen => .ok seen.length
  | (identity, msg) :: rest, claimed, seen =>
      if msg ≠ digest then .error .InvalidMessage
      else if identity ∉ owners then .error .InvalidSigner
      else if identity ∈ seen then .error .DuplicateSigner
      else
        match claimed with
        | [] => .error .InvalidMessageSigner
        | c :: cs =>
            if identity ≠ c then .error .InvalidMessageSigner
            else validateEntries digest owners rest cs (identity :: seen)

/-- Modelled from the spec: the `execute` gate sequence of §4.3 — address
binding, exact nonce equality, digest recomputation, precompile
introspection (`verification = none` when the preceding instruction is
absent), per-signer cross-validation, threshold, then the sole state
mutation: `nonce := nonce + 1`.  A rejection returns no successor state
(the runtime rolls back atomically). -/
def execute (keccak : List Nat → List Nat) (config : MultiSigConfig)
    (suppliedPda : List Nat) (params : ExecuteParams)
    (verification : Option (List (List Nat × List Nat))) :
    Except ExecError MultiSigConfig :=
  if config.multisigPda ≠ suppliedPda then .error .ConstraintSeeds
  else if params.nonce ≠ config.nonce then .error .ErrNonceTooOld
  else
    let digest := createMultiSigTxHash keccak config.multisigPda config.nonce
      params.accounts params.data params.programId
    match verification with
    | none => .error .MissingVerification
    | some entries =>
        match validateEntries digest config.owners entries params.signers [] with
        | .error e => .error e
        | .ok count =>
            if count < config.threshold then .error .ThresholdNotMet
            else .ok { config with nonce := config.nonce + 1 }

/-! ## Theorems — buffer-model basics -/

theorem take_append_add (pre rest : List Nat) (k : Nat) :
    (pre ++ rest).take (pre.length + k) = pre ++ rest.take k := by
  induction pre with
  | nil => simp
  | cons b bs ih => simpa [Nat.succ_add] using ih

theorem drop_append_add (pre rest : List Nat) (k : Nat) :
    (pre ++ rest).drop (pre.length + k) = rest.drop k := by
  induction pre with
  | nil => simp
  | cons b bs ih => simpa [Nat.succ_add] using ih

theorem getElem?_append_add (pre rest : List Nat) (k : Nat) :
    (pre ++ rest)[pre.length + k]? = rest[k]? := by
  induction pre with
  | nil => simp
  | cons b bs ih => simpa [Nat.succ_add] using ih

theorem overwrite_append (pre rest src : List Nat)
    (h : src.length ≤ rest.length) :
    overwrite (pre ++ rest) pre.length src = pre ++ (src ++ rest.drop src.length) := by
  unfold overwrite
  have ht : (pre ++ rest).take (pre.length + 0) = pre ++ rest.take 0 :=
    take_append_add pre rest 0
  simp only [Nat.add_zero, List.take_zero, List.append_nil] at ht
  rw [ht, drop_append_add, List.append_assoc]

theorem length_overwrite (buf src : List Nat) (off : Nat)
    (h : off + src.length ≤ buf.length) :
    (overwrite buf off src).length = buf.length := by
  unfold overwrite
  simp only [List.length_append, List.length_take, List.length_drop]
  omega

/-- Writing a `u16` at the boundary between a processed prefix and the rest. -/
theorem writeUInt16LE_append (pre rest : List Nat) (v : Nat)
    (hv : v ≤ 65535) (h2 : 2 ≤ rest.length) :
    writeUInt16LE (pre ++ rest) v pre.length
      = some (pre ++ (u16le v ++ rest.drop 2)) := by
  unfold writeUInt16LE
  have hlen : pre.length + 2 ≤ (pre ++ rest).length := by
    simp only [List.length_append]; omega
  rw [if_pos ⟨hv, hlen⟩]
  have := overwrite_append pre rest [v % 256, v / 256 % 256] (by simpa using h2)
  simp only [List.length_cons, List.length_nil] at this
  rw [this]; rfl

/-- Writing a byte at the boundary between a processed prefix and the rest. -/
theorem writeUInt8_append (pre rest : List Nat) (v : Nat)
    (hv : v ≤ 255) (h1 : 1 ≤ rest.length) :
    writeUInt8 (pre ++ rest) v pre.length
      = some (pre ++ ([v] ++ rest.drop 1)) := by
  unfold writeUInt8
  have hlen : pre.length + 1 ≤ (pre ++ rest).length := by
    simp only [List.length_append]; omega
  rw [if_pos ⟨hv, hlen⟩]
  have := overwrite_append pre rest [v] (by simpa using h1)
  simp only [List.length_cons, List.length_nil] at this
  rw [this]

/-- Writing a block at the boundary between a processed prefix and the rest. -/
theorem bufSet_append (pre rest src : List Nat) (h : src.length ≤ rest.length) :
    bufSet (pre ++ rest) src pre.length
      = some (pre ++ (src ++ rest.drop src.length)) := by
  unfold bufSet
  have hlen : pre.length + src.length ≤ (pre ++ rest).length := by
    simp only [List.length_append]; omega
  rw [if_pos hlen, overwrite_append pre rest src h]

theorem writeUInt16LE_append' (pre rest : List Nat) (v off : Nat)
    (hoff : off = pre.length) (hv : v ≤ 65535) (h2 : 2 ≤ rest.length) :
    writeUInt16LE (pre ++ rest) v off = some (pre ++ (u16le v ++ rest.drop 2)) := by
  subst hoff; exact writeUInt16LE_append pre rest v hv h2

theorem writeUInt8_append' (pre rest : List Nat) (v off : Nat)
    (hoff : off = pre.length) (hv : v ≤ 255) (h1 : 1 ≤ rest.length) :
    writeUInt8 (pre ++ rest) v off = some (pre ++ ([v] ++ rest.drop 1)) := by
  subst hoff; exact writeUInt8_append pre rest v hv h1

theorem bufSet_append' (pre rest src : List Nat) (off : Nat)
    (hoff : off = pre.length) (h : src.length ≤ rest.length) :
    bufSet (pre ++ rest) src off
      = some (pre ++ (src ++ rest.drop src.length)) := by
  subst hoff; exact bufSet_append pre rest src h

theorem readUInt16LE_append (pre : List Nat) (a b : Nat) (t : List Nat) :
    readUInt16LE (pre ++ (a :: b :: t)) pre.length = some (a + 256 * b) := by
  unfold readUInt16LE
  have h0 : (pre ++ (a :: b :: t))[pre.length + 0]? = (a :: b :: t)[0]? :=
    getElem?_append_add pre (a :: b :: t) 0
  have h1 : (pre ++ (a :: b :: t))[pre.length + 1]? = (a :: b :: t)[1]? :=
    getElem?_append_add pre (a :: b :: t) 1
  simp only [Nat.add_zero] at h0
  rw [h0, h1]
  simp [Option.bind]

/-- Reading back a stored little-endian `u16` recovers the value. -/
theorem u16le_roundtrip (v : Nat) (hv : v ≤ 65535) :
    v % 256 + 256 * (v / 256 % 256) = v := by
  omega

/-- Extracting the slice `[pre.length, pre.length + mid.length)` of
`pre ++ mid ++ suffix` gives back `mid`. -/
theorem subarray_append (pre mid suffix : List Nat) :
    subarray (pre ++ (mid ++ suffix)) pre.length (pre.length + mid.length) = mid := by
  unfold subarray
  rw [take_append_add]
  have : (mid ++ suffix).take mid.length = mid := by
    have := take_append_add mid suffix 0
    simpa using this
  rw [this]
  have := drop_append_add pre mid 0
  simpa using this

/-- Seven consecutive little-endian `u16` writes at
`pre.length, pre.length+2, …, pre.length+12` fill the next 14 bytes. -/
theorem writeU16x7 (k : List Nat → Option (List Nat))
    (pre rest : List Nat) (v1 v2 v3 v4 v5 v6 v7 : Nat)
    (h1 : v1 ≤ 65535) (h2 : v2 ≤ 65535) (h3 : v3 ≤ 65535) (h4 : v4 ≤ 65535)
    (h5 : v5 ≤ 65535) (h6 : v6 ≤ 65535) (h7 : v7 ≤ 65535)
    (hr : 14 ≤ rest.length) :
    (do
      let b1 ← writeUInt16LE (pre ++ rest) v1 pre.length
      let b2 ← writeUInt16LE b1 v2 (pre.length + 2)
      let b3 ← writeUInt16LE b2 v3 (pre.length + 4)
      let b4 ← writeUInt16LE b3 v4 (pre.length + 6)
      let b5 ← writeUInt16LE b4 v5 (pre.length + 8)
      let b6 ← writeUInt16LE b5 v6 (pre.length + 10)
      let b7 ← writeUInt16LE b6 v7 (pre.length + 12)
      k b7)
      = k (pre ++ (u16le v1 ++ u16le v2 ++ u16le v3 ++ u16le v4
          ++ u16le v5 ++ u16le v6 ++ u16le v7 ++ rest.drop 14)) := by
  have step1 : writeUInt16LE (pre ++ rest) v1 pre.length
      = some (pre ++ (u16le v1 ++ rest.drop 2)) :=
    writeUInt16LE_append pre rest v1 h1 (by omega)
  have step2 : writeUInt16LE (pre ++ (u16le v1 ++ rest.drop 2)) v2 (pre.length + 2)
      = some ((pre ++ u16le v1) ++ (u16le v2 ++ (rest.drop 2).drop 2)) := by
    have hb : pre ++ (u16le v1 ++ rest.drop 2) = (pre ++ u16le v1) ++ rest.drop 2 := by
      simp [List.append_assoc]
    have ho : pre.length + 2 = (pre ++ u16le v1).length := by simp [u16le]
    rw [hb, ho, writeUInt16LE_append _ _ v2 h2 (by simp only [List.length_drop]; omega)]
  have step3 : writeUInt16LE
        (pre ++ (u16le v1 ++ (u16le v2 ++ rest.drop 4))) v3 (pre.length + 4)
      = some ((pre ++ u16le v1 ++ u16le v2) ++ (u16le v3 ++ (rest.drop 4).drop 2)) := by
    have hb : pre ++ (u16le v1 ++ (u16le v2 ++ rest.drop 4))
        = (pre ++ u16le v1 ++ u16le v2) ++ rest.drop 4 := by simp [List.append_assoc]
    have ho : pre.length + 4 = (pre ++ u16le v1 ++ u16le v2).length := by simp [u16le]
    rw [hb, ho, writeUInt16LE_append _ _ v3 h3 (by simp only [List.length_drop]; omega)]
  have step4 : writeUInt16LE
        (pre ++ (u16le v1 ++ (u16le v2 ++ (u16le v3 ++ rest.drop 6)))) v4 (pre.length + 6)
      = some ((pre ++ u16le v1 ++ u16le v2 ++ u16le v3)
          ++ (u16le v4 ++ (rest.drop 6).drop 2)) := by
    have hb : pre ++ (u16le v1 ++ (u16le v2 ++ (u16le v3 ++ rest.drop 6)))
        = (pre ++ u16le v1 ++ u16le v2 ++ u16le v3) ++ rest.drop 6 := by
      simp [List.append_assoc]
    have ho : pre.length + 6 = (pre ++ u16le v1 ++ u16le v2 ++ u16le v3).length := by
      simp [u16le]
    rw [hb, ho, writeUInt16LE_append _ _ v4 h4 (by simp only [List.length_drop]; omega)]
  have step5 : writeUInt16LE
        (pre ++ (u16le v1 ++ (u16le v2 ++ (u16le v3 ++ (u16le v4 ++ rest.drop 8)))))
        v5 (pre.length + 8)
      = some ((pre ++ u16le v1 ++ u16le v2 ++ u16le v3 ++ u16le v4)
          ++ (u16le v5 ++ (rest.drop 8).drop 2)) := by
    have hb : pre ++ (u16le v1 ++ (u16le v2 ++ (u16le v3 ++ (u16le v4 ++ rest.drop 8))))
        = (pre ++ u16le v1 ++ u16le v2 ++ u16le v3 ++ u16le v4) ++ rest.drop 8 := by
      simp [List.append_assoc]
    have ho : pre.length + 8
        = (pre ++ u16le v1 ++ u16le v2 ++ u16le v3 ++ u16le v4).length := by simp [u16le]
    rw [hb, ho, writeUInt16LE_append _ _ v5 h5 (by simp only [List.length_drop]; omega)]
  have step6 : writeUInt16LE
        (pre ++ (u16le v1 ++ (u16le v2 ++ (u16le v3 ++ (u16le v4
          ++ (u16le v5 ++ rest.drop 10)))))) v6 (pre.length + 10)
      = some ((pre ++ u16le v1 ++ u16le v2 ++ u16le v3 ++ u16le v4 ++ u16le v5)
          ++ (u16le v6 ++ (rest.drop 10).drop 2)) := by
    have hb : pre ++ (u16le v1 ++ (u16le v2 ++ (u16le v3 ++ (u16le v4
          ++ (u16le v5 ++ rest.drop 10)))))
        = (pre ++ u16le v1 ++ u16le v2 ++ u16le v3 ++ u16le v4 ++ u16le v5)
          ++ rest.drop 10 := by simp [List.append_assoc]
    have ho : pre.length + 10
        = (pre ++ u16le v1 ++ u16le v2 ++ u16le v3 ++ u16le v4 ++ u16le v5).length := by
      simp [u16le]
    rw [hb, ho, writeUInt16LE_append _ _ v6 h6 (by simp only [List.length_drop]; omega)]
  have step7 : writeUInt16LE
        (pre ++ (u16le v1 ++ (u16le v2 ++ (u16le v3 ++ (u16le v4 ++ (u16le v5
          ++ (u16le v6 ++ rest.drop 12))))))) v7 (pre.length + 12)
      = some ((pre ++ u16le v1 ++ u16le v2 ++ u16le v3 ++ u16le v4 ++ u16le v5
          ++ u16le v6) ++ (u16le v7 ++ (rest.drop 12).drop 2)) := by
    have hb : pre ++ (u16le v1 ++ (u16le v2 ++ (u16le v3 ++ (u16le v4 ++ (u16le v5
          ++ (u16le v6 ++ rest.drop 12))))))
        = (pre ++ u16le v1 ++ u16le v2 ++ u16le v3 ++ u16le v4 ++ u16le v5 ++ u16le v6)
          ++ rest.drop 12 := by simp [List.append_assoc]
    have ho : pre.length + 12
        = (pre ++ u16le v1 ++ u16le v2 ++ u16le v3 ++ u16le v4 ++ u16le v5
            ++ u16le v6).length := by simp [u16le]
    rw [hb, ho, writeUInt16LE_append _ _ v7 h7 (by simp only [List.length_drop]; omega)]
  rw [step1]
  simp only [Option.bind_eq_bind, Option.some_bind]
  rw [step2]
  simp only [Option.some_bind, List.drop_drop]
  norm_num
  rw [step3]
  simp only [Option.some_bind, List.drop_drop]
  norm_num
  rw [step4]
  simp only [Option.some_bind, List.drop_drop]
  norm_num
  rw [step5]
  simp only [Option.some_bind, List.drop_drop]
  norm_num
  rw [step6]
  simp only [Option.some_bind, List.drop_drop]
  norm_num
  rw [step7]
  simp only [Option.some_bind, List.drop_drop]
  norm_num

/-- The encoder's header loop fills the next `14·N` bytes with the header
rows generated from the three cursors, leaving everything else unchanged. -/
theorem writeEdHeaders_eq (params : List Ed25519SignatureVerifyParams) :
    ∀ (pre rest : List Nat) (sigOff pubOff msgOff : Nat),
    14 * params.length ≤ rest.length →
    sigOff + 64 * params.length ≤ 65535 →
    pubOff + 32 * params.length ≤ 65535 →
    msgOff + (params.map fun p => p.message.length).sum ≤ 65535 →
    writeEdHeaders (pre ++ rest) pre.length sigOff pubOff msgOff params
      = some (pre ++ (((edHeadersFrom sigOff pubOff msgOff params).map
            edHeaderBytes).flatten
          ++ rest.drop (14 * params.length))) := by
  induction params with
  | nil =>
      intro pre rest sigOff pubOff msgOff hr hs hp hm
      simp [writeEdHeaders, edHeadersFrom]
  | cons e rest' ih =>
      intro pre rest sigOff pubOff msgOff hr hs hp hm
      simp only [List.length_cons, List.map_cons, List.sum_cons] at hr hs hp hm
      simp only [writeEdHeaders]
      rw [writeU16x7 (fun b => writeEdHeaders b (pre.length + 14) (sigOff + 64)
            (pubOff + 32) (msgOff + e.message.length) rest')
          pre rest sigOff 65535 pubOff 65535 msgOff e.message.length 65535
          (by omega) (by omega) (by omega) (by omega) (by omega) (by omega)
          (by omega) (by omega)]
      have hreshape : pre ++ (u16le sigOff ++ u16le 65535 ++ u16le pubOff
            ++ u16le 65535 ++ u16le msgOff ++ u16le e.message.length ++ u16le 65535
            ++ rest.drop 14)
          = (pre ++ (u16le sigOff ++ u16le 65535 ++ u16le pubOff ++ u16le 65535
              ++ u16le msgOff ++ u16le e.message.length ++ u16le 65535))
            ++ rest.drop 14 := by simp [List.append_assoc]
      have hofflen : pre.length + 14
          = ((pre ++ (u16le sigOff ++ u16le 65535 ++ u16le pubOff ++ u16le 65535
              ++ u16le msgOff ++ u16le e.message.length ++ u16le 65535))).length := by
        simp [u16le]
      rw [hreshape, hofflen,
          ih _ (rest.drop 14) (sigOff + 64) (pubOff + 32) (msgOff + e.message.length)
            (by simp only [List.length_drop]; omega) (by omega) (by omega) (by omega)]
      simp only [edHeadersFrom, List.map_cons, List.flatten_cons, edHeaderBytes,
        List.drop_drop]
      norm_num [List.append_assoc, Nat.mul_succ, Nat.mul_add]
      rw [Nat.add_comm]

/-- The encoder's data loop writes the signatures, keys and messages into
the three field-grouped regions.  The segments `q`, `r`, `s` are the parts
of the buffer between the write cursors that this loop never touches. -/
theorem writeEdData_eq (params : List Ed25519SignatureVerifyParams) :
    ∀ (pre a q b r c s : List Nat),
    (∀ p ∈ params, p.signature.length = 64) →
    (∀ p ∈ params, p.publicKey.length = 32) →
    a.length = 64 * params.length →
    b.length = 32 * params.length →
    c.length = (params.map fun p => p.message.length).sum →
    writeEdData (pre ++ (a ++ (q ++ (b ++ (r ++ (c ++ s)))))) pre.length
        (pre.length + (a.length + q.length))
        (pre.length + (a.length + q.length + (b.length + r.length))) params
      = some (pre ++ ((params.map fun p => p.signature).flatten ++ (q
          ++ ((params.map fun p => p.publicKey).flatten ++ (r
          ++ ((params.map fun p => p.message).flatten ++ s)))))) := by
  induction params with
  | nil =>
      intro pre a q b r c s hsig hpk ha hb hc
      have ha0 : a = [] := List.length_eq_zero.mp (by simp [ha])
      have hb0 : b = [] := List.length_eq_zero.mp (by simp [hb])
      have hc0 : c = [] := List.length_eq_zero.mp (by simp [hc])
      subst ha0; subst hb0; subst hc0
      simp [writeEdData]
  | cons e rest' ih =>
      intro pre a q b r c s hsig hpk ha hb hc
      simp only [List.length_cons, List.map_cons, List.sum_cons] at ha hb hc
      have hsig_e : e.signature.length = 64 := hsig e (by simp)
      have hpk_e : e.publicKey.length = 32 := hpk e (by simp)
      have hae : (64:Nat) ≤ a.length := by omega
      have hbe : (32:Nat) ≤ b.length := by omega
      have hce : e.message.length ≤ c.length := by omega
      simp only [writeEdData]
      have step1 : bufSet (pre ++ (a ++ (q ++ (b ++ (r ++ (c ++ s))))))
            e.signature pre.length
          = some (pre ++ (e.signature
              ++ (a.drop 64 ++ (q ++ (b ++ (r ++ (c ++ s))))))) := by
        rw [bufSet_append pre _ e.signature
              (by simp only [List.length_append, hsig_e]; omega)]
        congr 2
        rw [hsig_e, List.drop_append_eq_append_drop,
            Nat.sub_eq_zero_of_le hae, List.drop_zero]
      rw [step1]
      simp only [Option.bind_eq_bind, Option.some_bind]
      have step2 : bufSet (pre ++ (e.signature
              ++ (a.drop 64 ++ (q ++ (b ++ (r ++ (c ++ s)))))))
            e.publicKey (pre.length + (a.length + q.length))
          = some ((pre ++ e.signature ++ a.drop 64 ++ q)
              ++ (e.publicKey ++ (b.drop 32 ++ (r ++ (c ++ s))))) := by
        have hb2 : pre ++ (e.signature ++ (a.drop 64 ++ (q ++ (b ++ (r ++ (c ++ s))))))
            = (pre ++ e.signature ++ a.drop 64 ++ q) ++ (b ++ (r ++ (c ++ s))) := by
          simp [List.append_assoc]
        have ho2 : pre.length + (a.length + q.length)
            = (pre ++ e.signature ++ a.drop 64 ++ q).length := by
          simp only [List.length_append, List.length_drop, hsig_e]
          omega
        rw [hb2, ho2, bufSet_append _ _ e.publicKey
              (by simp only [List.length_append, hpk_e]; omega)]
        congr 2
        rw [hpk_e, List.drop_append_eq_append_drop,
            Nat.sub_eq_zero_of_le hbe, List.drop_zero]
      rw [step2]
      simp only [Option.some_bind]
      have step3 : bufSet ((pre ++ e.signature ++ a.drop 64 ++ q)
              ++ (e.publicKey ++ (b.drop 32 ++ (r ++ (c ++ s)))))
            e.message (pre.length + (a.length + q.length + (b.length + r.length)))
          = some ((pre ++ e.signature ++ a.drop 64 ++ q ++ e.publicKey
                ++ b.drop 32 ++ r)
              ++ (e.message ++ (c.drop e.message.length ++ s))) := by
        have hb3 : (pre ++ e.signature ++ a.drop 64 ++ q)
              ++ (e.publicKey ++ (b.drop 32 ++ (r ++ (c ++ s))))
            = (pre ++ e.signature ++ a.drop 64 ++ q ++ e.publicKey ++ b.drop 32 ++ r)
              ++ (c ++ s) := by
          simp [List.append_assoc]
        have ho3 : pre.length + (a.length + q.length + (b.length + r.length))
            = (pre ++ e.signature ++ a.drop 64 ++ q ++ e.publicKey ++ b.drop 32
                ++ r).length := by
          simp only [List.length_append, List.length_drop, hsig_e, hpk_e]
          omega
        rw [hb3, ho3, bufSet_append _ _ e.message
              (by simp only [List.length_append]; omega)]
        congr 2
        rw [List.drop_append_eq_append_drop,
            Nat.sub_eq_zero_of_le hce, List.drop_zero]
      rw [step3]
      simp only [Option.some_bind]
      have hbuf : (pre ++ e.signature ++ a.drop 64 ++ q ++ e.publicKey ++ b.drop 32
              ++ r) ++ (e.message ++ (c.drop e.message.length ++ s))
          = (pre ++ e.signature) ++ (a.drop 64 ++ ((q ++ e.publicKey)
              ++ (b.drop 32 ++ ((r ++ e.message)
              ++ (c.drop e.message.length ++ s))))) := by
        simp [List.append_assoc]
      have ho1 : pre.length + 64 = (pre ++ e.signature).length := by
        simp [hsig_e]
      have ho2 : pre.length + (a.length + q.length) + 32
          = (pre ++ e.signature).length
            + ((a.drop 64).length + (q ++ e.publicKey).length) := by
        simp only [List.length_append, List.length_drop, hsig_e, hpk_e]
        omega
      have ho3 : pre.length + (a.length + q.length + (b.length + r.length))
            + e.message.length
          = (pre ++ e.signature).length
            + ((a.drop 64).length + (q ++ e.publicKey).length
              + ((b.drop 32).length + (r ++ e.message).length)) := by
        simp only [List.length_append, List.length_drop, hsig_e, hpk_e]
        omega
      rw [hbuf, ho1, ho2, ho3,
          ih (pre ++ e.signature) (a.drop 64) (q ++ e.publicKey) (b.drop 32)
            (r ++ e.message) (c.drop e.message.length) s
            (fun p hp => hsig p (by simp [hp]))
            (fun p hp => hpk p (by simp [hp]))
            (by simp only [List.length_drop]; omega)
            (by simp only [List.length_drop]; omega)
            (by simp only [List.length_drop]; omega)]
      simp [List.append_assoc]

theorem writeUInt8_zero (x : Nat) (rest : List Nat) (v : Nat) (hv : v ≤ 255) :
    writeUInt8 (x :: rest) v 0 = some (v :: rest) := by
  unfold writeUInt8 overwrite
  rw [if_pos ⟨hv, by simp⟩]
  simp

theorem writeUInt8_one (x y : Nat) (rest : List Nat) (v : Nat) (hv : v ≤ 255) :
    writeUInt8 (x :: y :: rest) v 1 = some (x :: v :: rest) := by
  unfold writeUInt8 overwrite
  rw [if_pos ⟨hv, by simp⟩]
  rfl

/-- `writeEdHeaders_eq` with the buffer and offset as free variables, for
rewriting at concrete call sites. -/
theorem writeEdHeaders_eq' (params : List Ed25519SignatureVerifyParams)
    (buf pre rest : List Nat) (off sigOff pubOff msgOff : Nat)
    (hbuf : buf = pre ++ rest) (hoff : off = pre.length)
    (hr : 14 * params.length ≤ rest.length)
    (hs : sigOff + 64 * params.length ≤ 65535)
    (hp : pubOff + 32 * params.length ≤ 65535)
    (hm : msgOff + (params.map fun p => p.message.length).sum ≤ 65535) :
    writeEdHeaders buf off sigOff pubOff msgOff params
      = some (pre ++ (((edHeadersFrom sigOff pubOff msgOff params).map
            edHeaderBytes).flatten
          ++ rest.drop (14 * params.length))) := by
  subst hbuf; subst hoff
  exact writeEdHeaders_eq params pre rest sigOff pubOff msgOff hr hs hp hm

/-- `writeEdData_eq` with the buffer and offsets as free variables. -/
theorem writeEdData_eq' (params : List Ed25519SignatureVerifyParams)
    (buf pre a q b r c s : List Nat) (off1 off2 off3 : Nat)
    (hbuf : buf = pre ++ (a ++ (q ++ (b ++ (r ++ (c ++ s))))))
    (hoff1 : off1 = pre.length)
    (hoff2 : off2 = pre.length + (a.length + q.length))
    (hoff3 : off3 = pre.length + (a.length + q.length + (b.length + r.length)))
    (hsig : ∀ p ∈ params, p.signature.length = 64)
    (hpk : ∀ p ∈ params, p.publicKey.length = 32)
    (ha : a.length = 64 * params.length)
    (hb : b.length = 32 * params.length)
    (hc : c.length = (params.map fun p => p.message.length).sum) :
    writeEdData buf off1 off2 off3 params
      = some (pre ++ ((params.map fun p => p.signature).flatten ++ (q
          ++ ((params.map fun p => p.publicKey).flatten ++ (r
          ++ ((params.map fun p => p.message).flatten ++ s)))))) := by
  subst hbuf; subst hoff1; subst hoff2; subst hoff3
  exact writeEdData_eq params pre a q b r c s hsig hpk ha hb hc

theorem length_edHeaderBytes (h : Ed25519Header) : (edHeaderBytes h).length = 14 := by
  simp [edHeaderBytes, u16le]

theorem length_edHeaderFlatten (sigOff pubOff msgOff : Nat)
    (params : List Ed25519SignatureVerifyParams) :
    (((edHeadersFrom sigOff pubOff msgOff params).map edHeaderBytes).flatten).length
      = 14 * params.length := by
  induction params generalizing sigOff pubOff msgOff with
  | nil => simp [edHeadersFrom]
  | cons e rest ih =>
      simp only [edHeadersFrom, List.map_cons, List.flatten_cons,
        List.length_append, List.length_cons, length_edHeaderBytes, ih]
      omega

/-- The native-curve encoder succeeds on well-formed input and produces
exactly the field-grouped layout `edEncodedSpec`. -/
theorem ed25519Encode_eq (params : List Ed25519SignatureVerifyParams)
    (hsig : ∀ p ∈ params, p.signature.length = 64)
    (hpk : ∀ p ∈ params, p.publicKey.length = 32)
    (hn : params.length ≤ 255)
    (ht : edTotalSize params ≤ 65535) :
    ed25519CreateVerifySignaturesInstruction params = some (edEncodedSpec params) := by
  have htot : edTotalSize params
      = 2 + 14 * params.length + 64 * params.length + 32 * params.length
        + (params.map fun p => p.message.length).sum := by
    simp [edTotalSize, edMsgStart, edPubStart, edDataStart]
  simp only [ed25519CreateVerifySignaturesInstruction]
  have hsplit : List.replicate
        (2 + 14 * params.length + params.length * 64 + params.length * 32
          + (params.map fun p => p.message.length).sum) (0:Nat)
      = (0:Nat) :: 0 :: (List.replicate (14 * params.length) 0
          ++ (List.replicate (params.length * 64) 0
          ++ (List.replicate (params.length * 32) 0
          ++ List.replicate ((params.map fun p => p.message.length).sum) 0))) := by
    rw [show 2 + 14 * params.length + params.length * 64 + params.length * 32
          + (params.map fun p => p.message.length).sum
        = 2 + (14 * params.length + (params.length * 64 + (params.length * 32
          + (params.map fun p => p.message.length).sum))) by ring]
    rw [List.replicate_add, List.replicate_add, List.replicate_add,
        List.replicate_add]
    rfl
  rw [hsplit, writeUInt8_zero _ _ _ hn]
  simp only [Option.bind_eq_bind, Option.some_bind]
  rw [writeUInt8_one _ _ _ _ (by norm_num)]
  simp only [Option.some_bind]
  rw [writeEdHeaders_eq' params
        (params.length :: 0 :: (List.replicate (14 * params.length) 0
          ++ (List.replicate (params.length * 64) 0
          ++ (List.replicate (params.length * 32) 0
          ++ List.replicate ((params.map fun p => p.message.length).sum) 0))))
        [params.length, 0]
        (List.replicate (14 * params.length) 0
          ++ (List.replicate (params.length * 64) 0
          ++ (List.replicate (params.length * 32) 0
          ++ List.replicate ((params.map fun p => p.message.length).sum) 0)))
        2 (2 + 14 * params.length)
        (2 + 14 * params.length + params.length * 64)
        (2 + 14 * params.length + params.length * 64 + params.length * 32)
        rfl rfl
        (by simp only [List.length_append, List.length_replicate]; omega)
        (by omega) (by omega) (by omega)]
  simp only [Option.some_bind]
  rw [show List.drop (14 * params.length)
        (List.replicate (14 * params.length) 0
          ++ (List.replicate (params.length * 64) 0
          ++ (List.replicate (params.length * 32) 0
          ++ List.replicate ((params.map fun p => p.message.length).sum) 0)))
      = List.replicate (params.length * 64) 0
          ++ (List.replicate (params.length * 32) 0
          ++ List.replicate ((params.map fun p => p.message.length).sum) 0) by
    rw [List.drop_append_eq_append_drop]
    simp]
  rw [writeEdData_eq' params
        ([params.length, 0]
          ++ (((edHeadersFrom (2 + 14 * params.length)
              (2 + 14 * params.length + params.length * 64)
              (2 + 14 * params.length + params.length * 64 + params.length * 32)
              params).map edHeaderBytes).flatten
            ++ (List.replicate (params.length * 64) 0
              ++ (List.replicate (params.length * 32) 0
              ++ List.replicate ((params.map fun p => p.message.length).sum) 0))))
        ([params.length, 0]
          ++ ((edHeadersFrom (2 + 14 * params.length)
              (2 + 14 * params.length + params.length * 64)
              (2 + 14 * params.length + params.length * 64 + params.length * 32)
              params).map edHeaderBytes).flatten)
        (List.replicate (params.length * 64) 0) []
        (List.replicate (params.length * 32) 0) []
        (List.replicate ((params.map fun p => p.message.length).sum) 0) []
        (2 + 14 * params.length)
        (2 + 14 * params.length + params.length * 64)
        (2 + 14 * params.length + params.length * 64 + params.length * 32)
        (by simp [List.append_assoc])
        (by simp only [List.length_append, List.length_cons, List.length_nil,
              length_edHeaderFlatten] <;> omega)
        (by simp only [List.length_append, List.length_cons, List.length_nil,
              List.length_replicate, length_edHeaderFlatten] <;> omega)
        (by simp only [List.length_append, List.length_cons, List.length_nil,
              List.length_replicate, length_edHeaderFlatten] <;> omega)
        hsig hpk
        (by simp only [List.length_replicate]; ring)
        (by simp only [List.length_replicate]; ring)
        (by simp only [List.length_replicate])]
  rw [show params.length * 64 = 64 * params.length by ring,
      show params.length * 32 = 32 * params.length by ring]
  simp only [edEncodedSpec, edHeaders, edMsgStart, edPubStart, edDataStart]
  simp [List.append_assoc]

/-! ### Reading back the encoded buffer -/

theorem readUInt16LE_shift (pre rest : List Nat) (k : Nat) :
    readUInt16LE (pre ++ rest) (pre.length + k) = readUInt16LE rest k := by
  unfold readUInt16LE
  rw [getElem?_append_add, show pre.length + k + 1 = pre.length + (k + 1) by omega,
      getElem?_append_add]

/-- Reading one 14-byte header row back recovers the header, provided every
field fits `u16`. -/
theorem readEdHeader_append (pre suffix : List Nat) (h : Ed25519Header)
    (b1 : h.sigOffset ≤ 65535) (b2 : h.sigInstIdx ≤ 65535)
    (b3 : h.pubOffset ≤ 65535) (b4 : h.pubInstIdx ≤ 65535)
    (b5 : h.msgOffset ≤ 65535) (b6 : h.msgSize ≤ 65535)
    (b7 : h.msgInstIdx ≤ 65535) :
    readEdHeader (pre ++ (edHeaderBytes h ++ suffix)) pre.length = some h := by
  obtain ⟨f1, f2, f3, f4, f5, f6, f7⟩ := h
  simp only at b1 b2 b3 b4 b5 b6 b7
  have hshape : edHeaderBytes ⟨f1, f2, f3, f4, f5, f6, f7⟩ ++ suffix
      = f1 % 256 :: f1 / 256 % 256 :: f2 % 256 :: f2 / 256 % 256
        :: f3 % 256 :: f3 / 256 % 256 :: f4 % 256 :: f4 / 256 % 256
        :: f5 % 256 :: f5 / 256 % 256 :: f6 % 256 :: f6 / 256 % 256
        :: f7 % 256 :: f7 / 256 % 256 :: suffix := by
    simp [edHeaderBytes, u16le]
  rw [hshape]
  unfold readEdHeader
  have rd : ∀ k : Nat, readUInt16LE (pre ++ (f1 % 256 :: f1 / 256 % 256
        :: f2 % 256 :: f2 / 256 % 256 :: f3 % 256 :: f3 / 256 % 256
        :: f4 % 256 :: f4 / 256 % 256 :: f5 % 256 :: f5 / 256 % 256
        :: f6 % 256 :: f6 / 256 % 256 :: f7 % 256 :: f7 / 256 % 256 :: suffix))
        (pre.length + k)
      = readUInt16LE (f1 % 256 :: f1 / 256 % 256
        :: f2 % 256 :: f2 / 256 % 256 :: f3 % 256 :: f3 / 256 % 256
        :: f4 % 256 :: f4 / 256 % 256 :: f5 % 256 :: f5 / 256 % 256
        :: f6 % 256 :: f6 / 256 % 256 :: f7 % 256 :: f7 / 256 % 256 :: suffix) k :=
    fun k => readUInt16LE_shift pre _ k
  have rd0 := rd 0
  rw [Nat.add_zero] at rd0
  rw [rd0, rd 2, rd 4, rd 6, rd 8, rd 10, rd 12]
  simp only [readUInt16LE, List.getElem?_cons_zero, List.getElem?_cons_succ,
    Option.some_bind, Option.bind_eq_bind]
  norm_num
  refine ⟨?_, ?_, ?_, ?_, ?_, ?_, ?_⟩ <;> omega

/-- The header-reading loop recovers exactly the header rows the encoder
wrote. -/
theorem readEdHeaders_spec (params : List Ed25519SignatureVerifyParams) :
    ∀ (pre suffix : List Nat) (base sigOff pubOff msgOff : Nat),
    base = pre.length →
    sigOff + 64 * params.length ≤ 65535 →
    pubOff + 32 * params.length ≤ 65535 →
    msgOff + (params.map fun p => p.message.length).sum ≤ 65535 →
    readEdHeaders (pre ++ (((edHeadersFrom sigOff pubOff msgOff params).map
          edHeaderBytes).flatten ++ suffix)) base params.length
      = some (edHeadersFrom sigOff pubOff msgOff params) := by
  induction params with
  | nil =>
      intro pre suffix base sigOff pubOff msgOff hb hs hp hm
      simp [readEdHeaders, edHeadersFrom]
  | cons e rest ih =>
      intro pre suffix base sigOff pubOff msgOff hb hs hp hm
      subst hb
      simp only [List.length_cons, List.map_cons, List.sum_cons] at hs hp hm
      simp only [edHeadersFrom, List.map_cons, List.flatten_cons, List.length_cons,
        readEdHeaders]
      have hshape : edHeaderBytes ⟨sigOff, 65535, pubOff, 65535, msgOff,
            e.message.length, 65535⟩
          ++ ((edHeadersFrom (sigOff + 64) (pubOff + 32)
              (msgOff + e.message.length) rest).map edHeaderBytes).flatten ++ suffix
        = edHeaderBytes ⟨sigOff, 65535, pubOff, 65535, msgOff,
            e.message.length, 65535⟩
          ++ (((edHeadersFrom (sigOff + 64) (pubOff + 32)
              (msgOff + e.message.length) rest).map edHeaderBytes).flatten
            ++ suffix) := by simp [List.append_assoc]
      rw [hshape, readEdHeader_append pre _ _ (by dsimp only; omega)
            (by dsimp only; omega) (by dsimp only; omega) (by dsimp only; omega)
            (by dsimp only; omega) (by dsimp only; omega) (by dsimp only; omega)]
      simp only [Option.some_bind, Option.bind_eq_bind]
      have hre : pre ++ (edHeaderBytes ⟨sigOff, 65535, pubOff, 65535, msgOff,
            e.message.length, 65535⟩
          ++ (((edHeadersFrom (sigOff + 64) (pubOff + 32)
              (msgOff + e.message.length) rest).map edHeaderBytes).flatten
            ++ suffix))
        = (pre ++ edHeaderBytes ⟨sigOff, 65535, pubOff, 65535, msgOff,
            e.message.length, 65535⟩)
          ++ (((edHeadersFrom (sigOff + 64) (pubOff + 32)
              (msgOff + e.message.length) rest).map edHeaderBytes).flatten
            ++ suffix) := by simp [List.append_assoc]
      rw [hre, ih (pre ++ edHeaderBytes ⟨sigOff, 65535, pubOff, 65535, msgOff,
            e.message.length, 65535⟩) suffix _ (sigOff + 64) (pubOff + 32)
            (msgOff + e.message.length)
            (by simp only [List.length_append, length_edHeaderBytes])
            (by omega) (by omega) (by omega)]
      simp

/-- Slicing entry `i`'s field out of the field-grouped data area recovers
it: the field starts after the fields of the first `i` entries. -/
theorem slice_flatten {α : Type} (f : α → List Nat) (entries : List α) :
    ∀ (pre suf : List Nat) (i : Nat) (e : α), entries[i]? = some e →
    subarray (pre ++ ((entries.map f).flatten ++ suf))
        (pre.length + ((entries.take i).map fun q => (f q).length).sum)
        (pre.length + (((entries.take i).map fun q => (f q).length).sum
          + (f e).length))
      = f e := by
  induction entries with
  | nil => intro pre suf i e he; simp at he
  | cons a tail ih =>
      intro pre suf i e he
      cases i with
      | zero =>
          simp only [List.getElem?_cons_zero, Option.some_inj] at he
          subst he
          simp only [List.take_zero, List.map_nil, List.sum_nil, Nat.add_zero,
            Nat.zero_add, List.map_cons, List.flatten_cons]
          have hshape : pre ++ ((f a ++ (tail.map f).flatten) ++ suf)
              = pre ++ (f a ++ ((tail.map f).flatten ++ suf)) := by
            simp [List.append_assoc]
          rw [hshape]
          exact subarray_append pre (f a) ((tail.map f).flatten ++ suf)
      | succ j =>
          simp only [List.getElem?_cons_succ] at he
          simp only [List.take_succ_cons, List.map_cons, List.sum_cons,
            List.flatten_cons]
          have hshape : pre ++ ((f a ++ (tail.map f).flatten) ++ suf)
              = (pre ++ f a) ++ ((tail.map f).flatten ++ suf) := by
            simp [List.append_assoc]
          have ho1 : pre.length + ((f a).length
                + ((tail.take j).map fun q => (f q).length).sum)
              = (pre ++ f a).length
                + ((tail.take j).map fun q => (f q).length).sum := by
            simp only [List.length_append]; omega
          have ho2 : pre.length + (((f a).length
                + ((tail.take j).map fun q => (f q).length).sum) + (f e).length)
              = (pre ++ f a).length
                + (((tail.take j).map fun q => (f q).length).sum + (f e).length) := by
            simp only [List.length_append]; omega
          rw [hshape, ho1, ho2]
          exact ih (pre ++ f a) suf j e he

/-- Prefix sums of a constant-valued map. -/
theorem sum_take_const {α : Type} (f : α → Nat) (c : Nat) (l : List α)
    (h : ∀ x ∈ l, f x = c) :
    ∀ i, i ≤ l.length → ((l.take i).map f).sum = c * i := by
  induction l with
  | nil =>
      intro i hi
      have hi0 : i = 0 := Nat.le_zero.mp (by simpa using hi)
      subst hi0
      simp
  | cons a tail ih =>
      intro i hi
      cases i with
      | zero => simp
      | succ j =>
          simp only [List.take_succ_cons, List.map_cons, List.sum_cons]
          rw [h a (by simp), ih (fun x hx => h x (by simp [hx])) j
                (by simpa using hi)]
          ring

theorem sum_map_const {α : Type} (f : α → Nat) (c : Nat) (l : List α)
    (h : ∀ x ∈ l, f x = c) : (l.map f).sum = c * l.length := by
  have := sum_take_const f c l h l.length (le_refl _)
  simpa using this

theorem length_edHeadersFrom (params : List Ed25519SignatureVerifyParams) :
    ∀ sigOff pubOff msgOff,
    (edHeadersFrom sigOff pubOff msgOff params).length = params.length := by
  induction params with
  | nil => intro s p m; simp [edHeadersFrom]
  | cons e rest ih => intro s p m; simp [edHeadersFrom, ih]

/-- The `i`-th header row the encoder writes, in closed form: offsets
`dataStart + 64·i`, `pubStart + 32·i`, `msgStart + Σ_{j<i} |mⱼ|`, size
`|mᵢ|`, instruction indexes `0xffff`. -/
theorem edHeadersFrom_getElem (params : List Ed25519SignatureVerifyParams) :
    ∀ (sigOff pubOff msgOff i : Nat) (e : Ed25519SignatureVerifyParams),
    params[i]? = some e →
    (edHeadersFrom sigOff pubOff msgOff params)[i]?
      = some ⟨sigOff + 64 * i, 65535, pubOff + 32 * i, 65535,
          msgOff + ((params.take i).map fun q => q.message.length).sum,
          e.message.length, 65535⟩ := by
  induction params with
  | nil => intro s p m i e he; simp at he
  | cons a tail ih =>
      intro s p m i e he
      cases i with
      | zero =>
          simp only [List.getElem?_cons_zero, Option.some_inj] at he
          subst he
          simp [edHeadersFrom]
      | succ j =>
          simp only [List.getElem?_cons_succ] at he
          simp only [edHeadersFrom, List.getElem?_cons_succ]
          rw [ih (s + 64) (p + 32) (m + a.message.length) j e he]
          simp only [List.take_succ_cons, List.map_cons, List.sum_cons,
            Option.some_inj]
          congr 1 <;> omega

theorem getElem?_lt {α : Type} (l : List α) (i : Nat) (e : α)
    (h : l[i]? = some e) : i < l.length := by
  by_contra hc
  rw [List.getElem?_eq_none (by omega)] at h
  exact Option.noConfusion h

theorem length_edEncodedSpec (params : List Ed25519SignatureVerifyParams)
    (hsig : ∀ p ∈ params, p.signature.length = 64)
    (hpk : ∀ p ∈ params, p.publicKey.length = 32) :
    (edEncodedSpec params).length = edTotalSize params := by
  have hS : ((params.map fun p => p.signature).flatten).length
      = 64 * params.length := by
    rw [List.length_flatten, List.map_map]
    exact sum_map_const _ 64 params (fun p hp => hsig p hp)
  have hK : ((params.map fun p => p.publicKey).flatten).length
      = 32 * params.length := by
    rw [List.length_flatten, List.map_map]
    exact sum_map_const _ 32 params (fun p hp => hpk p hp)
  have hM : ((params.map fun p => p.message).flatten).length
      = (params.map fun p => p.message.length).sum := by
    rw [List.length_flatten, List.map_map]
    rfl
  simp only [edEncodedSpec, edTotalSize, edMsgStart, edPubStart, edDataStart,
    List.length_append, List.length_cons, List.length_nil, edHeaders,
    length_edHeaderFlatten, hS, hK, hM] <;> omega

/-- Extracting the data of the `i`-th header row recovers entry `i`'s
signature, public key and message exactly. -/
theorem edExtract_at (params : List Ed25519SignatureVerifyParams)
    (hsig : ∀ p ∈ params, p.signature.length = 64)
    (hpk : ∀ p ∈ params, p.publicKey.length = 32)
    (i : Nat) (e : Ed25519SignatureVerifyParams) (he : params[i]? = some e) :
    ed25519ExtractEntry (edEncodedSpec params)
        ⟨edDataStart params + 64 * i, 65535, edPubStart params + 32 * i, 65535,
          edMsgStart params + ((params.take i).map fun q => q.message.length).sum,
          e.message.length, 65535⟩
      = ⟨e.signature, e.publicKey, e.message⟩ := by
  have hi : i < params.length := getElem?_lt params i e he
  have hP0len : (([params.length, 0]
        ++ ((edHeaders params).map edHeaderBytes).flatten)).length
      = edDataStart params := by
    simp only [List.length_append, List.length_cons, List.length_nil, edHeaders,
      length_edHeaderFlatten, edDataStart] <;> omega
  have hsum64 : ((params.take i).map fun q => q.signature.length).sum = 64 * i :=
    sum_take_const _ 64 params hsig i (by omega)
  have hsum32 : ((params.take i).map fun q => q.publicKey.length).sum = 32 * i :=
    sum_take_const _ 32 params hpk i (by omega)
  have hSlen : ((params.map fun p => p.signature).flatten).length
      = 64 * params.length := by
    rw [List.length_flatten, List.map_map]
    exact sum_map_const _ 64 params (fun p hp => hsig p hp)
  have hKlen : ((params.map fun p => p.publicKey).flatten).length
      = 32 * params.length := by
    rw [List.length_flatten, List.map_map]
    exact sum_map_const _ 32 params (fun p hp => hpk p hp)
  unfold ed25519ExtractEntry
  have hsigSlice : subarray (edEncodedSpec params)
        (edDataStart params + 64 * i) (edDataStart params + 64 * i + 64)
      = e.signature := by
    have hshape : edEncodedSpec params
        = ([params.length, 0] ++ ((edHeaders params).map edHeaderBytes).flatten)
          ++ ((params.map fun p => p.signature).flatten
            ++ ((params.map fun p => p.publicKey).flatten
              ++ (params.map fun p => p.message).flatten)) := by
      simp [edEncodedSpec, List.append_assoc]
    have hgoal := slice_flatten (fun p => p.signature) params
        ([params.length, 0] ++ ((edHeaders params).map edHeaderBytes).flatten)
        ((params.map fun p => p.publicKey).flatten
          ++ (params.map fun p => p.message).flatten) i e he
    rw [hP0len, hsum64, hsig e (by exact List.getElem?_mem he)] at hgoal
    rw [hshape]
    have harith : edDataStart params + 64 * i + 64
        = edDataStart params + (64 * i + 64) := by omega
    rw [harith]
    exact hgoal
  have hpubSlice : subarray (edEncodedSpec params)
        (edPubStart params + 32 * i) (edPubStart params + 32 * i + 32)
      = e.publicKey := by
    have hshape : edEncodedSpec params
        = (([params.length, 0] ++ ((edHeaders params).map edHeaderBytes).flatten)
            ++ (params.map fun p => p.signature).flatten)
          ++ ((params.map fun p => p.publicKey).flatten
            ++ (params.map fun p => p.message).flatten) := by
      simp [edEncodedSpec, List.append_assoc]
    have hgoal := slice_flatten (fun p => p.publicKey) params
        (([params.length, 0] ++ ((edHeaders params).map edHeaderBytes).flatten)
          ++ (params.map fun p => p.signature).flatten)
        ((params.map fun p => p.message).flatten) i e he
    have hpre : ((([params.length, 0]
            ++ ((edHeaders params).map edHeaderBytes).flatten)
          ++ (params.map fun p => p.signature).flatten)).length
        = edPubStart params := by
      simp only [List.length_append, List.length_cons, List.length_nil, edHeaders,
        length_edHeaderFlatten, edDataStart, edPubStart, hSlen] <;> omega
    rw [hpre, hsum32, hpk e (by exact List.getElem?_mem he)] at hgoal
    rw [hshape]
    have harith : edPubStart params + 32 * i + 32
        = edPubStart params + (32 * i + 32) := by omega
    rw [harith]
    exact hgoal
  have hmsgSlice : subarray (edEncodedSpec params)
        (edMsgStart params + ((params.take i).map fun q => q.message.length).sum)
        (edMsgStart params + ((params.take i).map fun q => q.message.length).sum
          + e.message.length)
      = e.message := by
    have hshape : edEncodedSpec params
        = ((([params.length, 0] ++ ((edHeaders params).map edHeaderBytes).flatten)
            ++ (params.map fun p => p.signature).flatten)
            ++ (params.map fun p => p.publicKey).flatten)
          ++ ((params.map fun p => p.message).flatten ++ []) := by
      simp [edEncodedSpec, List.append_assoc]
    have hgoal := slice_flatten (fun p => p.message) params
        ((([params.length, 0] ++ ((edHeaders params).map edHeaderBytes).flatten)
            ++ (params.map fun p => p.signature).flatten)
            ++ (params.map fun p => p.publicKey).flatten)
        [] i e he
    have hpre : (((([params.length, 0]
              ++ ((edHeaders params).map edHeaderBytes).flatten)
            ++ (params.map fun p => p.signature).flatten)
            ++ (params.map fun p => p.publicKey).flatten)).length
        = edMsgStart params := by
      simp only [List.length_append, hSlen, hKlen, List.length_cons,
        List.length_nil, edHeaders, length_edHeaderFlatten, edMsgStart,
        edPubStart, edDataStart] <;> omega
    rw [hpre] at hgoal
    rw [hshape]
    have harith : edMsgStart params
          + ((params.take i).map fun q => q.message.length).sum
          + e.message.length
        = edMsgStart params
          + (((params.take i).map fun q => q.message.length).sum
            + e.message.length) := by omega
    rw [harith]
    exact hgoal
  rw [hsigSlice, hpubSlice, hmsgSlice]

/-- Mapping the extractor over the header rows recovers all entries. -/
theorem edExtract_map (params : List Ed25519SignatureVerifyParams)
    (hsig : ∀ p ∈ params, p.signature.length = 64)
    (hpk : ∀ p ∈ params, p.publicKey.length = 32) :
    (edHeaders params).map (ed25519ExtractEntry (edEncodedSpec params))
      = params.map fun e =>
          (⟨e.signature, e.publicKey, e.message⟩ : Ed25519ParsedEntry) := by
  apply List.ext_getElem?
  intro i
  rw [List.getElem?_map, List.getElem?_map]
  cases hp : params[i]? with
  | none =>
      have hge : params.length ≤ i := by
        by_contra hc
        push_neg at hc
        rw [List.getElem?_eq_getElem hc] at hp
        exact Option.noConfusion hp
      have hnone : (edHeaders params)[i]? = none :=
        List.getElem?_eq_none (by rw [edHeaders, length_edHeadersFrom]; omega)
      rw [hnone]
      rfl
  | some e =>
      rw [show edHeaders params = edHeadersFrom (edDataStart params)
            (edPubStart params) (edMsgStart params) params from rfl,
          edHeadersFrom_getElem params _ _ _ i e hp]
      simp only [Option.map_some']
      rw [edExtract_at params hsig hpk i e hp]

theorem edTotal_expand (params : List Ed25519SignatureVerifyParams) :
    edTotalSize params
      = 2 + 14 * params.length + 64 * params.length + 32 * params.length
        + (params.map fun p => p.message.length).sum := rfl

/-- Parsing the encoded payload recovers the count, padding, header rows
and every entry's bytes. -/
theorem ed25519Parse_spec (params : List Ed25519SignatureVerifyParams)
    (hsig : ∀ p ∈ params, p.signature.length = 64)
    (hpk : ∀ p ∈ params, p.publicKey.length = 32)
    (ht : edTotalSize params ≤ 65535) :
    ed25519ParseBuffer (edEncodedSpec params)
      = some ⟨params.length, 0, edHeaders params,
          params.map fun e => ⟨e.signature, e.publicKey, e.message⟩⟩ := by
  have htx := ht
  rw [edTotal_expand params] at htx
  have h0 : readUInt8 (edEncodedSpec params) 0 = some params.length := by
    simp [edEncodedSpec, readUInt8]
  have h1 : readUInt8 (edEncodedSpec params) 1 = some 0 := by
    simp [edEncodedSpec, readUInt8]
  have h2 : readEdHeaders (edEncodedSpec params) 2 params.length
      = some (edHeaders params) := by
    have hshape : edEncodedSpec params
        = [params.length, 0]
          ++ (((edHeadersFrom (edDataStart params) (edPubStart params)
                (edMsgStart params) params).map edHeaderBytes).flatten
            ++ ((params.map fun p => p.signature).flatten
              ++ ((params.map fun p => p.publicKey).flatten
                ++ (params.map fun p => p.message).flatten))) := by
      simp [edEncodedSpec, edHeaders, List.append_assoc]
    rw [hshape]
    exact readEdHeaders_spec params [params.length, 0] _ 2 (edDataStart params)
      (edPubStart params) (edMsgStart params) rfl
      (by simp only [edDataStart]; omega)
      (by simp only [edPubStart, edDataStart]; omega)
      (by simp only [edMsgStart, edPubStart, edDataStart]; omega)
  unfold ed25519ParseBuffer
  rw [h0]
  simp only [Option.bind_eq_bind, Option.some_bind]
  rw [h1]
  simp only [Option.some_bind]
  rw [h2]
  simp only [Option.some_bind]
  rw [edExtract_map params hsig hpk]
  rfl

/-! ### secp256k1 codec lemmas -/

/-- One 11-byte secp header row: u16, u8, u16, u8, u16, u16, u8 writes at
consecutive offsets. -/
theorem writeSecpRow (k : List Nat → Option (List Nat))
    (pre rest : List Nat) (v1 v3 v5 v6 : Nat)
    (h1 : v1 ≤ 65535) (h3 : v3 ≤ 65535) (h5 : v5 ≤ 65535) (h6 : v6 ≤ 65535)
    (hr : 11 ≤ rest.length) :
    (do
      let b1 ← writeUInt16LE (pre ++ rest) v1 pre.length
      let b2 ← writeUInt8 b1 0 (pre.length + 2)
      let b3 ← writeUInt16LE b2 v3 (pre.length + 3)
      let b4 ← writeUInt8 b3 0 (pre.length + 5)
      let b5 ← writeUInt16LE b4 v5 (pre.length + 6)
      let b6 ← writeUInt16LE b5 v6 (pre.length + 8)
      let b7 ← writeUInt8 b6 0 (pre.length + 10)
      k b7)
      = k (pre ++ (u16le v1 ++ [0] ++ u16le v3 ++ [0] ++ u16le v5 ++ u16le v6
          ++ [0] ++ rest.drop 11)) := by
  have step1 : writeUInt16LE (pre ++ rest) v1 pre.length
      = some (pre ++ (u16le v1 ++ rest.drop 2)) :=
    writeUInt16LE_append pre rest v1 h1 (by omega)
  have step2 : writeUInt8 (pre ++ (u16le v1 ++ rest.drop 2)) 0 (pre.length + 2)
      = some ((pre ++ u16le v1) ++ ([0] ++ (rest.drop 2).drop 1)) := by
    have hb : pre ++ (u16le v1 ++ rest.drop 2) = (pre ++ u16le v1) ++ rest.drop 2 := by
      simp [List.append_assoc]
    have ho : pre.length + 2 = (pre ++ u16le v1).length := by simp [u16le]
    rw [hb, ho, writeUInt8_append _ _ 0 (by omega)
          (by simp only [List.length_drop]; omega)]
  have step3 : writeUInt16LE
        (pre ++ (u16le v1 ++ (0 :: rest.drop 3))) v3 (pre.length + 3)
      = some ((pre ++ u16le v1 ++ [0]) ++ (u16le v3 ++ (rest.drop 3).drop 2)) := by
    have hb : pre ++ (u16le v1 ++ (0 :: rest.drop 3))
        = (pre ++ u16le v1 ++ [0]) ++ rest.drop 3 := by simp [List.append_assoc]
    have ho : pre.length + 3 = (pre ++ u16le v1 ++ [0]).length := by simp [u16le]
    rw [hb, ho, writeUInt16LE_append _ _ v3 h3
          (by simp only [List.length_drop]; omega)]
  have step4 : writeUInt8
        (pre ++ (u16le v1 ++ (0 :: (u16le v3 ++ rest.drop 5)))) 0 (pre.length + 5)
      = some ((pre ++ u16le v1 ++ [0] ++ u16le v3)
          ++ ([0] ++ (rest.drop 5).drop 1)) := by
    have hb : pre ++ (u16le v1 ++ (0 :: (u16le v3 ++ rest.drop 5)))
        = (pre ++ u16le v1 ++ [0] ++ u16le v3) ++ rest.drop 5 := by
      simp [List.append_assoc]
    have ho : pre.length + 5 = (pre ++ u16le v1 ++ [0] ++ u16le v3).length := by
      simp [u16le]
    rw [hb, ho, writeUInt8_append _ _ 0 (by omega)
          (by simp only [List.length_drop]; omega)]
  have step5 : writeUInt16LE
        (pre ++ (u16le v1 ++ (0 :: (u16le v3 ++ (0 :: rest.drop 6))))) v5
        (pre.length + 6)
      = some ((pre ++ u16le v1 ++ [0] ++ u16le v3 ++ [0])
          ++ (u16le v5 ++ (rest.drop 6).drop 2)) := by
    have hb : pre ++ (u16le v1 ++ (0 :: (u16le v3 ++ (0 :: rest.drop 6))))
        = (pre ++ u16le v1 ++ [0] ++ u16le v3 ++ [0]) ++ rest.drop 6 := by
      simp [List.append_assoc]
    have ho : pre.length + 6
        = (pre ++ u16le v1 ++ [0] ++ u16le v3 ++ [0]).length := by simp [u16le]
    rw [hb, ho, writeUInt16LE_append _ _ v5 h5
          (by simp only [List.length_drop]; omega)]
  have step6 : writeUInt16LE
        (pre ++ (u16le v1 ++ (0 :: (u16le v3 ++ (0 :: (u16le v5 ++ rest.drop 8))))))
        v6 (pre.length + 8)
      = some ((pre ++ u16le v1 ++ [0] ++ u16le v3 ++ [0] ++ u16le v5)
          ++ (u16le v6 ++ (rest.drop 8).drop 2)) := by
    have hb : pre ++ (u16le v1 ++ (0 :: (u16le v3 ++ (0 :: (u16le v5
            ++ rest.drop 8)))))
        = (pre ++ u16le v1 ++ [0] ++ u16le v3 ++ [0] ++ u16le v5)
          ++ rest.drop 8 := by simp [List.append_assoc]
    have ho : pre.length + 8
        = (pre ++ u16le v1 ++ [0] ++ u16le v3 ++ [0] ++ u16le v5).length := by
      simp [u16le]
    rw [hb, ho, writeUInt16LE_append _ _ v6 h6
          (by simp only [List.length_drop]; omega)]
  have step7 : writeUInt8
        (pre ++ (u16le v1 ++ (0 :: (u16le v3 ++ (0 :: (u16le v5
          ++ (u16le v6 ++ rest.drop 10))))))) 0 (pre.length + 10)
      = some ((pre ++ u16le v1 ++ [0] ++ u16le v3 ++ [0] ++ u16le v5 ++ u16le v6)
          ++ ([0] ++ (rest.drop 10).drop 1)) := by
    have hb : pre ++ (u16le v1 ++ (0 :: (u16le v3 ++ (0 :: (u16le v5
            ++ (u16le v6 ++ rest.drop 10))))))
        = (pre ++ u16le v1 ++ [0] ++ u16le v3 ++ [0] ++ u16le v5 ++ u16le v6)
          ++ rest.drop 10 := by simp [List.append_assoc]
    have ho : pre.length + 10
        = (pre ++ u16le v1 ++ [0] ++ u16le v3 ++ [0] ++ u16le v5
            ++ u16le v6).length := by simp [u16le]
    rw [hb, ho, writeUInt8_append _ _ 0 (by omega)
          (by simp only [List.length_drop]; omega)]
  rw [step1]
  simp only [Option.bind_eq_bind, Option.some_bind]
  rw [step2]
  simp only [Option.some_bind, List.drop_drop]
  norm_num
  rw [step3]
  simp only [Option.some_bind, List.drop_drop]
  norm_num
  rw [step4]
  simp only [Option.some_bind, List.drop_drop]
  norm_num
  rw [step5]
  simp only [Option.some_bind, List.drop_drop]
  norm_num
  rw [step6]
  simp only [Option.some_bind, List.drop_drop]
  norm_num
  rw [step7]
  simp only [Option.some_bind, List.drop_drop]
  norm_num

/-- The secp encoder's single loop fills the header region and the three
field-grouped data regions.  `q`, `r`, `s2`, `t` are untouched segments
between the four write cursors. -/
theorem writeSecpEntries_eq (params : List Secp256k1SignatureVerifyParams) :
    ∀ (pre aHdr q bAddr r cSig s2 dMsg t : List Nat)
      (addrOff sigOff msgOff : Nat),
    aHdr.length = 11 * params.length →
    bAddr.length = 20 * params.length →
    cSig.length = 65 * params.length →
    dMsg.length = (params.map fun p => p.message.length).sum →
    addrOff = pre.length + (aHdr.length + q.length) →
    sigOff = pre.length + (aHdr.length + q.length + (bAddr.length + r.length)) →
    msgOff = pre.length + (aHdr.length + q.length + (bAddr.length + r.length
      + (cSig.length + s2.length))) →
    sigOff + 65 * params.length ≤ 65535 →
    addrOff + 20 * params.length ≤ 65535 →
    msgOff + (params.map fun p => p.message.length).sum ≤ 65535 →
    (∀ p ∈ params, p.ethAddress.length = 20) →
    (∀ p ∈ params, p.signature.length = 64) →
    (∀ p ∈ params, p.recoveryId ≤ 255) →
    writeSecpEntries (pre ++ (aHdr ++ (q ++ (bAddr ++ (r ++ (cSig ++ (s2
        ++ (dMsg ++ t)))))))) pre.length addrOff sigOff msgOff params
      = some (pre ++ (((secpHeadersFrom addrOff sigOff msgOff params).map
            secpHeaderBytes).flatten
          ++ (q ++ ((params.map fun p => p.ethAddress).flatten
          ++ (r ++ ((params.map fun p => p.signature ++ [p.recoveryId]).flatten
          ++ (s2 ++ ((params.map fun p => p.message).flatten
          ++ (dMsg.drop ((params.map fun p => p.message.length).sum) ++ t))))))))) := by
  induction params with
  | nil =>
      intro pre aHdr q bAddr r cSig s2 dMsg t addrOff sigOff msgOff
        ha hb hc hd hoA hoS hoM bS bA bM hA hS hR
      have ha0 : aHdr = [] := List.length_eq_zero.mp (by simp [ha])
      have hb0 : bAddr = [] := List.length_eq_zero.mp (by simp [hb])
      have hc0 : cSig = [] := List.length_eq_zero.mp (by simp [hc])
      subst ha0; subst hb0; subst hc0
      simp [writeSecpEntries, secpHeadersFrom]
  | cons e rest ih =>
      intro pre aHdr q bAddr r cSig s2 dMsg t addrOff sigOff msgOff
        ha hb hc hd hoA hoS hoM bS bA bM hA hS hR
      simp only [List.length_cons, List.map_cons, List.sum_cons]
        at ha hb hc hd bS bA bM
      have hA_e : e.ethAddress.length = 20 := hA e (by simp)
      have hS_e : e.signature.length = 64 := hS e (by simp)
      have hR_e : e.recoveryId ≤ 255 := hR e (by simp)
      simp only [writeSecpEntries]
      rw [writeSecpRow
            (fun b => do
              let b ← bufSet b e.ethAddress addrOff
              let b ← bufSet b e.signature sigOff
              let b ← writeUInt8 b e.recoveryId (sigOff + 64)
              let b ← bufSet b e.message msgOff
              writeSecpEntries b (pre.length + 11) (addrOff + 20) (sigOff + 65)
                (msgOff + e.message.length) rest)
            pre _ sigOff addrOff msgOff e.message.length
            (by omega) (by omega) (by omega) (by omega)
            (by simp only [List.length_append]; omega)]
      have hdropA : (aHdr ++ (q ++ (bAddr ++ (r ++ (cSig ++ (s2 ++ (dMsg
              ++ t))))))).drop 11
          = aHdr.drop 11 ++ (q ++ (bAddr ++ (r ++ (cSig ++ (s2 ++ (dMsg
              ++ t)))))) := by
        rw [List.drop_append_eq_append_drop, Nat.sub_eq_zero_of_le (by omega),
            List.drop_zero]
      rw [hdropA]
      have stepA : bufSet (pre ++ (u16le sigOff ++ [0] ++ u16le addrOff ++ [0]
              ++ u16le msgOff ++ u16le e.message.length ++ [0]
              ++ (aHdr.drop 11 ++ (q ++ (bAddr ++ (r ++ (cSig ++ (s2
                ++ (dMsg ++ t)))))))))
            e.ethAddress addrOff
          = some ((pre ++ u16le sigOff ++ [0] ++ u16le addrOff ++ [0]
                ++ u16le msgOff ++ u16le e.message.length ++ [0]
                ++ aHdr.drop 11 ++ q)
              ++ (e.ethAddress ++ (bAddr.drop 20 ++ (r ++ (cSig ++ (s2
                ++ (dMsg ++ t))))))) := by
        have hshape : pre ++ (u16le sigOff ++ [0] ++ u16le addrOff ++ [0]
              ++ u16le msgOff ++ u16le e.message.length ++ [0]
              ++ (aHdr.drop 11 ++ (q ++ (bAddr ++ (r ++ (cSig ++ (s2
                ++ (dMsg ++ t))))))))
            = (pre ++ u16le sigOff ++ [0] ++ u16le addrOff ++ [0]
                ++ u16le msgOff ++ u16le e.message.length ++ [0]
                ++ aHdr.drop 11 ++ q)
              ++ (bAddr ++ (r ++ (cSig ++ (s2 ++ (dMsg ++ t))))) := by
          simp [List.append_assoc]
        have hoff : addrOff
            = (pre ++ u16le sigOff ++ [0] ++ u16le addrOff ++ [0]
                ++ u16le msgOff ++ u16le e.message.length ++ [0]
                ++ aHdr.drop 11 ++ q).length := by
          simp only [List.length_append, List.length_cons, List.length_nil,
            List.length_drop, u16le]
          omega
        rw [hshape, bufSet_append' _ _ e.ethAddress addrOff hoff
              (by simp only [List.length_append, hA_e]; omega)]
        congr 2
        rw [hA_e, List.drop_append_eq_append_drop,
            Nat.sub_eq_zero_of_le (by omega), List.drop_zero]
      rw [stepA]
      simp only [Option.bind_eq_bind, Option.some_bind]
      have stepS : bufSet ((pre ++ u16le sigOff ++ [0] ++ u16le addrOff ++ [0]
                ++ u16le msgOff ++ u16le e.message.length ++ [0]
                ++ aHdr.drop 11 ++ q)
              ++ (e.ethAddress ++ (bAddr.drop 20 ++ (r ++ (cSig ++ (s2
                ++ (dMsg ++ t)))))))
            e.signature sigOff
          = some ((pre ++ u16le sigOff ++ [0] ++ u16le addrOff ++ [0]
                ++ u16le msgOff ++ u16le e.message.length ++ [0]
                ++ aHdr.drop 11 ++ q ++ e.ethAddress ++ bAddr.drop 20 ++ r)
              ++ (e.signature ++ (cSig.drop 64 ++ (s2 ++ (dMsg ++ t))))) := by
        have hshape : (pre ++ u16le sigOff ++ [0] ++ u16le addrOff ++ [0]
                ++ u16le msgOff ++ u16le e.message.length ++ [0]
                ++ aHdr.drop 11 ++ q)
              ++ (e.ethAddress ++ (bAddr.drop 20 ++ (r ++ (cSig ++ (s2
                ++ (dMsg ++ t))))))
            = (pre ++ u16le sigOff ++ [0] ++ u16le addrOff ++ [0]
                ++ u16le msgOff ++ u16le e.message.length ++ [0]
                ++ aHdr.drop 11 ++ q ++ e.ethAddress ++ bAddr.drop 20 ++ r)
              ++ (cSig ++ (s2 ++ (dMsg ++ t))) := by
          simp [List.append_assoc]
        have hoff : sigOff
            = (pre ++ u16le sigOff ++ [0] ++ u16le addrOff ++ [0]
                ++ u16le msgOff ++ u16le e.message.length ++ [0]
                ++ aHdr.drop 11 ++ q ++ e.ethAddress ++ bAddr.drop 20
                ++ r).length := by
          simp only [List.length_append, List.length_cons, List.length_nil,
            List.length_drop, u16le, hA_e]
          omega
        rw [hshape, bufSet_append' _ _ e.signature sigOff hoff
              (by simp only [List.length_append, hS_e]; omega)]
        congr 2
        rw [hS_e, List.drop_append_eq_append_drop,
            Nat.sub_eq_zero_of_le (by omega), List.drop_zero]
      rw [stepS]
      simp only [Option.some_bind]
      have hcSig64 : cSig.drop 64 ≠ [] := by
        intro hnil
        have := congrArg List.length hnil
        simp only [List.length_drop, List.length_nil] at this
        omega
      obtain ⟨cByte, cTail, hcons⟩ : ∃ x xs, cSig.drop 64 = x :: xs := by
        cases hx : cSig.drop 64 with
        | nil => exact absurd hx hcSig64
        | cons x xs => exact ⟨x, xs, rfl⟩
      have stepR : writeUInt8 ((pre ++ u16le sigOff ++ [0] ++ u16le addrOff
                ++ [0] ++ u16le msgOff ++ u16le e.message.length ++ [0]
                ++ aHdr.drop 11 ++ q ++ e.ethAddress ++ bAddr.drop 20 ++ r)
              ++ (e.signature ++ (cSig.drop 64 ++ (s2 ++ (dMsg ++ t)))))
            e.recoveryId (sigOff + 64)
          = some ((pre ++ u16le sigOff ++ [0] ++ u16le addrOff ++ [0]
                ++ u16le msgOff ++ u16le e.message.length ++ [0]
                ++ aHdr.drop 11 ++ q ++ e.ethAddress ++ bAddr.drop 20 ++ r
                ++ e.signature)
              ++ ([e.recoveryId] ++ (cTail ++ (s2 ++ (dMsg ++ t))))) := by
        have hshape : (pre ++ u16le sigOff ++ [0] ++ u16le addrOff ++ [0]
                ++ u16le msgOff ++ u16le e.message.length ++ [0]
                ++ aHdr.drop 11 ++ q ++ e.ethAddress ++ bAddr.drop 20 ++ r)
              ++ (e.signature ++ (cSig.drop 64 ++ (s2 ++ (dMsg ++ t))))
            = (pre ++ u16le sigOff ++ [0] ++ u16le addrOff ++ [0]
                ++ u16le msgOff ++ u16le e.message.length ++ [0]
                ++ aHdr.drop 11 ++ q ++ e.ethAddress ++ bAddr.drop 20 ++ r
                ++ e.signature)
              ++ (cSig.drop 64 ++ (s2 ++ (dMsg ++ t))) := by
          simp [List.append_assoc]
        have hoff : sigOff + 64
            = (pre ++ u16le sigOff ++ [0] ++ u16le addrOff ++ [0]
                ++ u16le msgOff ++ u16le e.message.length ++ [0]
                ++ aHdr.drop 11 ++ q ++ e.ethAddress ++ bAddr.drop 20 ++ r
                ++ e.signature).length := by
          simp only [List.length_append, List.length_cons, List.length_nil,
            List.length_drop, u16le, hA_e, hS_e]
          omega
        rw [hshape, writeUInt8_append' _ _ e.recoveryId (sigOff + 64) hoff hR_e
              (by simp only [List.length_append, List.length_drop]; omega)]
        rw [hcons]
        rfl
      rw [stepR]
      simp only [Option.some_bind]
      have stepM : bufSet ((pre ++ u16le sigOff ++ [0] ++ u16le addrOff ++ [0]
                ++ u16le msgOff ++ u16le e.message.length ++ [0]
                ++ aHdr.drop 11 ++ q ++ e.ethAddress ++ bAddr.drop 20 ++ r
                ++ e.signature)
              ++ ([e.recoveryId] ++ (cTail ++ (s2 ++ (dMsg ++ t)))))
            e.message msgOff
          = some ((pre ++ u16le sigOff ++ [0] ++ u16le addrOff ++ [0]
                ++ u16le msgOff ++ u16le e.message.length ++ [0]
                ++ aHdr.drop 11 ++ q ++ e.ethAddress ++ bAddr.drop 20 ++ r
                ++ e.signature ++ [e.recoveryId] ++ cTail ++ s2)
              ++ (e.message ++ (dMsg.drop e.message.length ++ t))) := by
        have hctl : cTail.length = 65 * rest.length := by
          have := congrArg List.length hcons
          simp only [List.length_drop, List.length_cons] at this
          omega
        have hshape : (pre ++ u16le sigOff ++ [0] ++ u16le addrOff ++ [0]
                ++ u16le msgOff ++ u16le e.message.length ++ [0]
                ++ aHdr.drop 11 ++ q ++ e.ethAddress ++ bAddr.drop 20 ++ r
                ++ e.signature)
              ++ ([e.recoveryId] ++ (cTail ++ (s2 ++ (dMsg ++ t))))
            = (pre ++ u16le sigOff ++ [0] ++ u16le addrOff ++ [0]
                ++ u16le msgOff ++ u16le e.message.length ++ [0]
                ++ aHdr.drop 11 ++ q ++ e.ethAddress ++ bAddr.drop 20 ++ r
                ++ e.signature ++ [e.recoveryId] ++ cTail ++ s2)
              ++ (dMsg ++ t) := by
          simp [List.append_assoc]
        have hoff : msgOff
            = (pre ++ u16le sigOff ++ [0] ++ u16le addrOff ++ [0]
                ++ u16le msgOff ++ u16le e.message.length ++ [0]
                ++ aHdr.drop 11 ++ q ++ e.ethAddress ++ bAddr.drop 20 ++ r
                ++ e.signature ++ [e.recoveryId] ++ cTail ++ s2).length := by
          simp only [List.length_append, List.length_cons, List.length_nil,
            List.length_drop, u16le, hA_e, hS_e, hctl]
          omega
        rw [hshape, bufSet_append' _ _ e.message msgOff hoff
              (by simp only [List.length_append]; omega)]
        congr 2
        rw [List.drop_append_eq_append_drop,
            Nat.sub_eq_zero_of_le (by omega), List.drop_zero]
      rw [stepM]
      simp only [Option.some_bind]
      have hctl : cTail.length = 65 * rest.length := by
        have := congrArg List.length hcons
        simp only [List.length_drop, List.length_cons] at this
        omega
      rw [show pre.length + 11
            = (pre ++ (u16le sigOff ++ [0] ++ u16le addrOff ++ [0]
                ++ u16le msgOff ++ u16le e.message.length ++ [0])).length by
            simp [u16le]]
      rw [show (pre ++ u16le sigOff ++ [0] ++ u16le addrOff ++ [0]
                ++ u16le msgOff ++ u16le e.message.length ++ [0]
                ++ aHdr.drop 11 ++ q ++ e.ethAddress ++ bAddr.drop 20 ++ r
                ++ e.signature ++ [e.recoveryId] ++ cTail ++ s2)
              ++ (e.message ++ (dMsg.drop e.message.length ++ t))
            = (pre ++ (u16le sigOff ++ [0] ++ u16le addrOff ++ [0]
                ++ u16le msgOff ++ u16le e.message.length ++ [0]))
              ++ (aHdr.drop 11 ++ ((q ++ e.ethAddress) ++ (bAddr.drop 20
                ++ ((r ++ (e.signature ++ [e.recoveryId])) ++ (cTail
                ++ ((s2 ++ e.message) ++ (dMsg.drop e.message.length ++ t)))))))
            by simp [List.append_assoc]]
      rw [ih (pre ++ (u16le sigOff ++ [0] ++ u16le addrOff ++ [0]
              ++ u16le msgOff ++ u16le e.message.length ++ [0]))
            (aHdr.drop 11) (q ++ e.ethAddress) (bAddr.drop 20)
            (r ++ (e.signature ++ [e.recoveryId])) cTail (s2 ++ e.message)
            (dMsg.drop e.message.length) t
            (addrOff + 20) (sigOff + 65) (msgOff + e.message.length)
            (by simp only [List.length_drop]; omega)
            (by simp only [List.length_drop]; omega)
            hctl
            (by simp only [List.length_drop]; omega)
            (by simp only [List.length_append, List.length_drop, List.length_cons,
                  List.length_nil, u16le, hA_e]
                omega)
            (by simp only [List.length_append, List.length_drop, List.length_cons,
                  List.length_nil, u16le, hA_e, hS_e]
                omega)
            (by simp only [List.length_append, List.length_drop, List.length_cons,
                  List.length_nil, u16le, hA_e, hS_e, hctl]
                omega)
            (by omega) (by omega) (by omega)
            (fun p hp => hA p (by simp [hp]))
            (fun p hp => hS p (by simp [hp]))
            (fun p hp => hR p (by simp [hp]))]
      simp only [secpHeadersFrom, secpHeaderBytes, List.map_cons,
        List.flatten_cons, List.drop_drop]
      norm_num [List.append_assoc]

theorem length_secpHeaderBytes (h : SecpHeader) : (secpHeaderBytes h).length = 11 := by
  simp [secpHeaderBytes, u16le]

theorem length_secpHeaderFlatten (addrOff sigOff msgOff : Nat)
    (params : List Secp256k1SignatureVerifyParams) :
    (((secpHeadersFrom addrOff sigOff msgOff params).map
        secpHeaderBytes).flatten).length = 11 * params.length := by
  induction params generalizing addrOff sigOff msgOff with
  | nil => simp [secpHeadersFrom]
  | cons e rest ih =>
      simp only [secpHeadersFrom, List.map_cons, List.flatten_cons,
        List.length_append, List.length_cons, length_secpHeaderBytes, ih]
      omega

theorem length_secpHeadersFrom (params : List Secp256k1SignatureVerifyParams) :
    ∀ addrOff sigOff msgOff,
    (secpHeadersFrom addrOff sigOff msgOff params).length = params.length := by
  induction params with
  | nil => intro a sg m; simp [secpHeadersFrom]
  | cons e rest ih => intro a sg m; simp [secpHeadersFrom, ih]

/-- `writeSecpEntries_eq` with the buffer and base offset free. -/
theorem writeSecpEntries_eq' (params : List Secp256k1SignatureVerifyParams)
    (buf pre aHdr q bAddr r cSig s2 dMsg t : List Nat)
    (base addrOff sigOff msgOff : Nat)
    (hbuf : buf = pre ++ (aHdr ++ (q ++ (bAddr ++ (r ++ (cSig ++ (s2
      ++ (dMsg ++ t))))))))
    (hbase : base = pre.length)
    (ha : aHdr.length = 11 * params.length)
    (hb : bAddr.length = 20 * params.length)
    (hc : cSig.length = 65 * params.length)
    (hd : dMsg.length = (params.map fun p => p.message.length).sum)
    (hoA : addrOff = pre.length + (aHdr.length + q.length))
    (hoS : sigOff = pre.length + (aHdr.length + q.length
      + (bAddr.length + r.length)))
    (hoM : msgOff = pre.length + (aHdr.length + q.length + (bAddr.length
      + r.length + (cSig.length + s2.length))))
    (bS : sigOff + 65 * params.length ≤ 65535)
    (bA : addrOff + 20 * params.length ≤ 65535)
    (bM : msgOff + (params.map fun p => p.message.length).sum ≤ 65535)
    (hA : ∀ p ∈ params, p.ethAddress.length = 20)
    (hS : ∀ p ∈ params, p.signature.length = 64)
    (hR : ∀ p ∈ params, p.recoveryId ≤ 255) :
    writeSecpEntries buf base addrOff sigOff msgOff params
      = some (pre ++ (((secpHeadersFrom addrOff sigOff msgOff params).map
            secpHeaderBytes).flatten
          ++ (q ++ ((params.map fun p => p.ethAddress).flatten
          ++ (r ++ ((params.map fun p => p.signature ++ [p.recoveryId]).flatten
          ++ (s2 ++ ((params.map fun p => p.message).flatten
          ++ (dMsg.drop ((params.map fun p => p.message.length).sum)
            ++ t))))))))) := by
  subst hbuf; subst hbase
  exact writeSecpEntries_eq params pre aHdr q bAddr r cSig s2 dMsg t
    addrOff sigOff msgOff ha hb hc hd hoA hoS hoM bS bA bM hA hS hR

theorem secpTotal_expand (params : List Secp256k1SignatureVerifyParams) :
    secpTotalSize params
      = 1 + 11 * params.length + 20 * params.length + 65 * params.length
        + (params.map fun p => p.message.length).sum := rfl

/-- The secp encoder succeeds on well-formed input and produces exactly the
field-grouped layout `secpEncodedSpec`. -/
theorem secpEncode_eq (params : List Secp256k1SignatureVerifyParams)
    (hA : ∀ p ∈ params, p.ethAddress.length = 20)
    (hS : ∀ p ∈ params, p.signature.length = 64)
    (hR : ∀ p ∈ params, p.recoveryId ≤ 255)
    (hn : params.length ≤ 255)
    (ht : secpTotalSize params ≤ 65535) :
    secpCreateVerifySignaturesInstruction params = some (secpEncodedSpec params) := by
  have htx := ht
  rw [secpTotal_expand params] at htx
  simp only [secpCreateVerifySignaturesInstruction]
  have hsplit : List.replicate
        (1 + params.length * 11 + params.length * 20 + params.length * (64 + 1)
          + (params.map fun p => p.message.length).sum) (0:Nat)
      = (0:Nat) :: (List.replicate (params.length * 11) 0
          ++ (List.replicate (params.length * 20) 0
          ++ (List.replicate (params.length * (64 + 1)) 0
          ++ List.replicate ((params.map fun p => p.message.length).sum) 0))) := by
    rw [show 1 + params.length * 11 + params.length * 20
          + params.length * (64 + 1)
          + (params.map fun p => p.message.length).sum
        = 1 + (params.length * 11 + (params.length * 20
          + (params.length * (64 + 1)
          + (params.map fun p => p.message.length).sum))) by ring]
    rw [List.replicate_add, List.replicate_add, List.replicate_add,
        List.replicate_add]
    rfl
  rw [hsplit, writeUInt8_zero _ _ _ hn]
  simp only [Option.bind_eq_bind, Option.some_bind]
  rw [writeSecpEntries_eq' params
        (params.length :: (List.replicate (params.length * 11) 0
          ++ (List.replicate (params.length * 20) 0
          ++ (List.replicate (params.length * (64 + 1)) 0
          ++ List.replicate ((params.map fun p => p.message.length).sum) 0))))
        [params.length]
        (List.replicate (params.length * 11) 0) []
        (List.replicate (params.length * 20) 0) []
        (List.replicate (params.length * (64 + 1)) 0) []
        (List.replicate ((params.map fun p => p.message.length).sum) 0) []
        1 (1 + params.length * 11) (1 + params.length * 11 + params.length * 20)
        (1 + params.length * 11 + params.length * 20 + params.length * (64 + 1))
        (by simp) rfl
        (by simp only [List.length_replicate]; ring)
        (by simp only [List.length_replicate]; ring)
        (by simp only [List.length_replicate]; ring)
        (by simp only [List.length_replicate])
        (by simp only [List.length_replicate, List.length_cons, List.length_nil,
              List.length_append] <;> omega)
        (by simp only [List.length_replicate, List.length_cons, List.length_nil,
              List.length_append] <;> omega)
        (by simp only [List.length_replicate, List.length_cons, List.length_nil,
              List.length_append] <;> omega)
        (by omega) (by omega) (by omega) hA hS hR]
  rw [show params.length * 11 = 11 * params.length by ring,
      show params.length * 20 = 20 * params.length by ring,
      show params.length * (64 + 1) = 65 * params.length by ring]
  simp only [secpEncodedSpec, secpHeaders, secpMsgStart, secpSigStart,
    secpAddrStart, List.drop_replicate]
  simp [List.append_assoc]

theorem readUInt8_shift (pre rest : List Nat) (k : Nat) :
    readUInt8 (pre ++ rest) (pre.length + k) = readUInt8 rest k := by
  unfold readUInt8
  exact getElem?_append_add pre rest k

/-- Reading one 11-byte secp header row back recovers the header, provided
the u16 fields fit. -/
theorem readSecpHeader_append (pre suffix : List Nat) (h : SecpHeader)
    (b1 : h.sigOffset ≤ 65535) (b3 : h.addrOffset ≤ 65535)
    (b5 : h.msgOffset ≤ 65535) (b6 : h.msgSize ≤ 65535) :
    readSecpHeader (pre ++ (secpHeaderBytes h ++ suffix)) pre.length = some h := by
  obtain ⟨f1, f2, f3, f4, f5, f6, f7⟩ := h
  simp only at b1 b3 b5 b6
  have hshape : secpHeaderBytes ⟨f1, f2, f3, f4, f5, f6, f7⟩ ++ suffix
      = f1 % 256 :: f1 / 256 % 256 :: f2 :: f3 % 256 :: f3 / 256 % 256 :: f4
        :: f5 % 256 :: f5 / 256 % 256 :: f6 % 256 :: f6 / 256 % 256 :: f7
        :: suffix := by
    simp [secpHeaderBytes, u16le]
  rw [hshape]
  unfold readSecpHeader
  have rd16 : ∀ k : Nat, readUInt16LE (pre ++ (f1 % 256 :: f1 / 256 % 256 :: f2
        :: f3 % 256 :: f3 / 256 % 256 :: f4 :: f5 % 256 :: f5 / 256 % 256
        :: f6 % 256 :: f6 / 256 % 256 :: f7 :: suffix)) (pre.length + k)
      = readUInt16LE (f1 % 256 :: f1 / 256 % 256 :: f2 :: f3 % 256
        :: f3 / 256 % 256 :: f4 :: f5 % 256 :: f5 / 256 % 256 :: f6 % 256
        :: f6 / 256 % 256 :: f7 :: suffix) k :=
    fun k => readUInt16LE_shift pre _ k
  have rd8 : ∀ k : Nat, readUInt8 (pre ++ (f1 % 256 :: f1 / 256 % 256 :: f2
        :: f3 % 256 :: f3 / 256 % 256 :: f4 :: f5 % 256 :: f5 / 256 % 256
        :: f6 % 256 :: f6 / 256 % 256 :: f7 :: suffix)) (pre.length + k)
      = readUInt8 (f1 % 256 :: f1 / 256 % 256 :: f2 :: f3 % 256
        :: f3 / 256 % 256 :: f4 :: f5 % 256 :: f5 / 256 % 256 :: f6 % 256
        :: f6 / 256 % 256 :: f7 :: suffix) k :=
    fun k => readUInt8_shift pre _ k
  have rd0 := rd16 0
  rw [Nat.add_zero] at rd0
  rw [rd0, rd8 2, rd16 3, rd8 5, rd16 6, rd16 8, rd8 10]
  simp only [readUInt16LE, readUInt8, List.getElem?_cons_zero,
    List.getElem?_cons_succ, Option.some_bind, Option.bind_eq_bind]
  norm_num
  refine ⟨?_, ?_, ?_, ?_⟩ <;> omega

/-- The secp header-reading loop recovers exactly the rows the encoder
wrote. -/
theorem readSecpHeaders_spec (params : List Secp256k1SignatureVerifyParams) :
    ∀ (pre suffix : List Nat) (base addrOff sigOff msgOff : Nat),
    base = pre.length →
    sigOff + 65 * params.length ≤ 65535 →
    addrOff + 20 * params.length ≤ 65535 →
    msgOff + (params.map fun p => p.message.length).sum ≤ 65535 →
    readSecpHeaders (pre ++ (((secpHeadersFrom addrOff sigOff msgOff
          params).map secpHeaderBytes).flatten ++ suffix)) base params.length
      = some (secpHeadersFrom addrOff sigOff msgOff params) := by
  induction params with
  | nil =>
      intro pre suffix base addrOff sigOff msgOff hb hs ha hm
      simp [readSecpHeaders, secpHeadersFrom]
  | cons e rest ih =>
      intro pre suffix base addrOff sigOff msgOff hb hs ha hm
      subst hb
      simp only [List.length_cons, List.map_cons, List.sum_cons] at hs ha hm
      simp only [secpHeadersFrom, List.map_cons, List.flatten_cons,
        List.length_cons, readSecpHeaders]
      have hshape : secpHeaderBytes ⟨sigOff, 0, addrOff, 0, msgOff,
            e.message.length, 0⟩
          ++ ((secpHeadersFrom (addrOff + 20) (sigOff + 65)
              (msgOff + e.message.length) rest).map secpHeaderBytes).flatten
          ++ suffix
        = secpHeaderBytes ⟨sigOff, 0, addrOff, 0, msgOff,
            e.message.length, 0⟩
          ++ (((secpHeadersFrom (addrOff + 20) (sigOff + 65)
              (msgOff + e.message.length) rest).map secpHeaderBytes).flatten
            ++ suffix) := by simp [List.append_assoc]
      rw [hshape, readSecpHeader_append pre _ _ (by dsimp only; omega)
            (by dsimp only; omega) (by dsimp only; omega) (by dsimp only; omega)]
      simp only [Option.some_bind, Option.bind_eq_bind]
      have hre : pre ++ (secpHeaderBytes ⟨sigOff, 0, addrOff, 0, msgOff,
            e.message.length, 0⟩
          ++ (((secpHeadersFrom (addrOff + 20) (sigOff + 65)
              (msgOff + e.message.length) rest).map secpHeaderBytes).flatten
            ++ suffix))
        = (pre ++ secpHeaderBytes ⟨sigOff, 0, addrOff, 0, msgOff,
            e.message.length, 0⟩)
          ++ (((secpHeadersFrom (addrOff + 20) (sigOff + 65)
              (msgOff + e.message.length) rest).map secpHeaderBytes).flatten
            ++ suffix) := by simp [List.append_assoc]
      rw [hre, ih (pre ++ secpHeaderBytes ⟨sigOff, 0, addrOff, 0, msgOff,
            e.message.length, 0⟩) suffix _ (addrOff + 20) (sigOff + 65)
            (msgOff + e.message.length)
            (by simp only [List.length_append, length_secpHeaderBytes])
            (by omega) (by omega) (by omega)]
      simp

/-- The `i`-th secp header row, in closed form. -/
theorem secpHeadersFrom_getElem (params : List Secp256k1SignatureVerifyParams) :
    ∀ (addrOff sigOff msgOff i : Nat) (e : Secp256k1SignatureVerifyParams),
    params[i]? = some e →
    (secpHeadersFrom addrOff sigOff msgOff params)[i]?
      = some ⟨sigOff + 65 * i, 0, addrOff + 20 * i, 0,
          msgOff + ((params.take i).map fun q => q.message.length).sum,
          e.message.length, 0⟩ := by
  induction params with
  | nil => intro a sg m i e he; simp at he
  | cons p tail ih =>
      intro a sg m i e he
      cases i with
      | zero =>
          simp only [List.getElem?_cons_zero, Option.some_inj] at he
          subst he
          simp [secpHeadersFrom]
      | succ j =>
          simp only [List.getElem?_cons_succ] at he
          simp only [secpHeadersFrom, List.getElem?_cons_succ]
          rw [ih (a + 20) (sg + 65) (m + p.message.length) j e he]
          simp only [List.take_succ_cons, List.map_cons, List.sum_cons,
            Option.some_inj]
          congr 1 <;> omega

/-- Decomposing the field-grouped flatten around entry `i`'s field. -/
theorem flatten_decomp {α : Type} (f : α → List Nat) (entries : List α) :
    ∀ (i : Nat) (e : α), entries[i]? = some e →
    ∃ pref suff, (entries.map f).flatten = pref ++ (f e ++ suff)
      ∧ pref.length = ((entries.take i).map fun q => (f q).length).sum := by
  induction entries with
  | nil => intro i e he; simp at he
  | cons a tail ih =>
      intro i e he
      cases i with
      | zero =>
          simp only [List.getElem?_cons_zero, Option.some_inj] at he
          subst he
          exact ⟨[], (tail.map f).flatten, by simp, by simp⟩
      | succ j =>
          simp only [List.getElem?_cons_succ] at he
          obtain ⟨pref, suff, heq, hlen⟩ := ih j e he
          refine ⟨f a ++ pref, suff, ?_, ?_⟩
          · simp only [List.map_cons, List.flatten_cons, heq, List.append_assoc]
          · simp only [List.length_append, hlen, List.take_succ_cons,
              List.map_cons, List.sum_cons]

/-- `mapOrFail` succeeds with a given output list when it succeeds
index-wise. -/
theorem mapOrFail_eq_some (f : SecpHeader → Option SecpParsedEntry) :
    ∀ (l : List SecpHeader) (out : List SecpParsedEntry),
    out.length = l.length →
    (∀ (i : Nat) (a : SecpHeader) (b : SecpParsedEntry),
      l[i]? = some a → out[i]? = some b → f a = some b) →
    mapOrFail f l = some out := by
  intro l
  induction l with
  | nil =>
      intro out hlen h
      cases out with
      | nil => rfl
      | cons b bs => simp at hlen
  | cons a tail ih =>
      intro out hlen h
      cases out with
      | nil => simp at hlen
      | cons b out' =>
          have h0 : f a = some b := h 0 a b (by simp) (by simp)
          have hrec := ih out' (by simpa using hlen)
            (fun i x y hx hy => h (i + 1) x y (by simpa using hx)
              (by simpa using hy))
          simp [mapOrFail, h0, hrec]

theorem length_secpEncodedSpec (params : List Secp256k1SignatureVerifyParams)
    (hA : ∀ p ∈ params, p.ethAddress.length = 20)
    (hS : ∀ p ∈ params, p.signature.length = 64) :
    (secpEncodedSpec params).length = secpTotalSize params := by
  have hAd : ((params.map fun p => p.ethAddress).flatten).length
      = 20 * params.length := by
    rw [List.length_flatten, List.map_map]
    exact sum_map_const _ 20 params (fun p hp => hA p hp)
  have hSg : ((params.map fun p => p.signature ++ [p.recoveryId]).flatten).length
      = 65 * params.length := by
    rw [List.length_flatten, List.map_map]
    exact sum_map_const _ 65 params (fun p hp => by
      simp [Function.comp, hS p hp])
  have hM : ((params.map fun p => p.message).flatten).length
      = (params.map fun p => p.message.length).sum := by
    rw [List.length_flatten, List.map_map]
    rfl
  simp only [secpEncodedSpec, secpTotalSize, secpMsgStart, secpSigStart,
    secpAddrStart, List.length_append, List.length_cons, List.length_nil,
    secpHeaders, length_secpHeaderFlatten, hAd, hSg, hM] <;> omega

/-- Extracting the data of the `i`-th secp header row recovers entry `i`'s
signature, recovery id, address and message exactly. -/
theorem secpExtract_at (params : List Secp256k1SignatureVerifyParams)
    (hA : ∀ p ∈ params, p.ethAddress.length = 20)
    (hS : ∀ p ∈ params, p.signature.length = 64)
    (i : Nat) (e : Secp256k1SignatureVerifyParams) (he : params[i]? = some e) :
    secpExtractEntry (secpEncodedSpec params)
        ⟨secpSigStart params + 65 * i, 0, secpAddrStart params + 20 * i, 0,
          secpMsgStart params
            + ((params.take i).map fun q => q.message.length).sum,
          e.message.length, 0⟩
      = some ⟨e.signature, e.recoveryId, e.ethAddress, e.message⟩ := by
  have hi : i < params.length := getElem?_lt params i e he
  have he_mem : e ∈ params := List.getElem?_mem he
  have hS_e : e.signature.length = 64 := hS e he_mem
  have hA_e : e.ethAddress.length = 20 := hA e he_mem
  have hHdrLen : ((([params.length]
        ++ ((secpHeaders params).map secpHeaderBytes).flatten)).length)
      = secpAddrStart params := by
    simp only [List.length_append, List.length_cons, List.length_nil,
      secpHeaders, length_secpHeaderFlatten, secpAddrStart] <;> omega
  have hAd : ((params.map fun p => p.ethAddress).flatten).length
      = 20 * params.length := by
    rw [List.length_flatten, List.map_map]
    exact sum_map_const _ 20 params (fun p hp => hA p hp)
  obtain ⟨pref, suff, hdecomp, hpreflen⟩ :=
    flatten_decomp (fun p => p.signature ++ [p.recoveryId]) params i e he
  have hpref65 : pref.length = 65 * i := by
    rw [hpreflen]
    exact sum_take_const (fun q => (q.signature ++ [q.recoveryId]).length) 65
      params (fun q hq => by simp [hS q hq]) i (by omega)
  have hsum20 : ((params.take i).map fun q => q.ethAddress.length).sum
      = 20 * i := sum_take_const _ 20 params hA i (by omega)
  have hrec : readUInt8 (secpEncodedSpec params)
        (secpSigStart params + 65 * i + 64) = some e.recoveryId := by
    have hshape : secpEncodedSpec params
        = (([params.length] ++ ((secpHeaders params).map secpHeaderBytes).flatten
            ++ (params.map fun p => p.ethAddress).flatten ++ pref)
            ++ e.signature)
          ++ ([e.recoveryId]
            ++ (suff ++ (params.map fun p => p.message).flatten)) := by
      simp only [secpEncodedSpec, hdecomp]
      simp [List.append_assoc]
    have hlen : secpSigStart params + 65 * i + 64
        = ((([params.length] ++ ((secpHeaders params).map secpHeaderBytes).flatten
            ++ (params.map fun p => p.ethAddress).flatten ++ pref)
            ++ e.signature)).length := by
      simp only [List.length_append, List.length_cons, List.length_nil,
        secpHeaders, length_secpHeaderFlatten, hAd, hpref65, hS_e,
        secpSigStart, secpAddrStart] <;> omega
    rw [hshape, hlen]
    have hsh := readUInt8_shift (([params.length]
          ++ ((secpHeaders params).map secpHeaderBytes).flatten
          ++ (params.map fun p => p.ethAddress).flatten ++ pref)
          ++ e.signature)
        ([e.recoveryId] ++ (suff ++ (params.map fun p => p.message).flatten)) 0
    rw [Nat.add_zero] at hsh
    rw [hsh]
    simp [readUInt8]
  have hsig : subarray (secpEncodedSpec params)
        (secpSigStart params + 65 * i) (secpSigStart params + 65 * i + 64)
      = e.signature := by
    have hshape : secpEncodedSpec params
        = ([params.length] ++ ((secpHeaders params).map secpHeaderBytes).flatten
            ++ (params.map fun p => p.ethAddress).flatten ++ pref)
          ++ (e.signature
            ++ ([e.recoveryId]
              ++ (suff ++ (params.map fun p => p.message).flatten))) := by
      simp only [secpEncodedSpec, hdecomp]
      simp [List.append_assoc]
    have hlen : secpSigStart params + 65 * i
        = (([params.length] ++ ((secpHeaders params).map secpHeaderBytes).flatten
            ++ (params.map fun p => p.ethAddress).flatten ++ pref)).length := by
      simp only [List.length_append, List.length_cons, List.length_nil,
        secpHeaders, length_secpHeaderFlatten, hAd, hpref65,
        secpSigStart, secpAddrStart] <;> omega
    have hsub := subarray_append ([params.length]
          ++ ((secpHeaders params).map secpHeaderBytes).flatten
          ++ (params.map fun p => p.ethAddress).flatten ++ pref)
        e.signature
        ([e.recoveryId] ++ (suff ++ (params.map fun p => p.message).flatten))
    rw [hshape, hlen]
    rw [show (([params.length] ++ ((secpHeaders params).map secpHeaderBytes).flatten
            ++ (params.map fun p => p.ethAddress).flatten ++ pref)).length + 64
        = (([params.length] ++ ((secpHeaders params).map secpHeaderBytes).flatten
            ++ (params.map fun p => p.ethAddress).flatten ++ pref)).length
          + e.signature.length by rw [hS_e]]
    exact hsub
  have haddr : subarray (secpEncodedSpec params)
        (secpAddrStart params + 20 * i) (secpAddrStart params + 20 * i + 20)
      = e.ethAddress := by
    have hshape : secpEncodedSpec params
        = ([params.length] ++ ((secpHeaders params).map secpHeaderBytes).flatten)
          ++ ((params.map fun p => p.ethAddress).flatten
            ++ ((params.map fun p => p.signature ++ [p.recoveryId]).flatten
              ++ (params.map fun p => p.message).flatten)) := by
      simp [secpEncodedSpec, List.append_assoc]
    have hgoal := slice_flatten (fun p => p.ethAddress) params
        ([params.length] ++ ((secpHeaders params).map secpHeaderBytes).flatten)
        ((params.map fun p => p.signature ++ [p.recoveryId]).flatten
          ++ (params.map fun p => p.message).flatten) i e he
    rw [hHdrLen, hsum20, hA_e] at hgoal
    rw [hshape, show secpAddrStart params + 20 * i + 20
          = secpAddrStart params + (20 * i + 20) by omega]
    exact hgoal
  have hmsg : subarray (secpEncodedSpec params)
        (secpMsgStart params + ((params.take i).map fun q => q.message.length).sum)
        (secpMsgStart params + ((params.take i).map fun q => q.message.length).sum
          + e.message.length)
      = e.message := by
    have hshape : secpEncodedSpec params
        = ([params.length] ++ ((secpHeaders params).map secpHeaderBytes).flatten
            ++ (params.map fun p => p.ethAddress).flatten
            ++ (params.map fun p => p.signature ++ [p.recoveryId]).flatten)
          ++ ((params.map fun p => p.message).flatten ++ []) := by
      simp [secpEncodedSpec, List.append_assoc]
    have hgoal := slice_flatten (fun p => p.message) params
        ([params.length] ++ ((secpHeaders params).map secpHeaderBytes).flatten
          ++ (params.map fun p => p.ethAddress).flatten
          ++ (params.map fun p => p.signature ++ [p.recoveryId]).flatten)
        [] i e he
    have hSg : ((params.map fun p => p.signature ++ [p.recoveryId]).flatten).length
        = 65 * params.length := by
      rw [List.length_flatten, List.map_map]
      exact sum_map_const _ 65 params (fun p hp => by
        simp [Function.comp, hS p hp])
    have hlen : (([params.length]
          ++ ((secpHeaders params).map secpHeaderBytes).flatten
          ++ (params.map fun p => p.ethAddress).flatten
          ++ (params.map fun p => p.signature ++ [p.recoveryId]).flatten)).length
        = secpMsgStart params := by
      simp only [List.length_append, List.length_cons, List.length_nil,
        secpHeaders, length_secpHeaderFlatten, hAd, hSg, secpMsgStart,
        secpSigStart, secpAddrStart] <;> omega
    rw [hlen] at hgoal
    rw [hshape, show secpMsgStart params
          + ((params.take i).map fun q => q.message.length).sum
          + e.message.length
        = secpMsgStart params
          + (((params.take i).map fun q => q.message.length).sum
            + e.message.length) by omega]
    exact hgoal
  unfold secpExtractEntry
  dsimp only
  rw [hrec]
  simp only [Option.some_bind, Option.bind_eq_bind]
  rw [hsig, haddr, hmsg]
  rfl

/-- Parsing the encoded secp payload recovers the count, header rows and
every entry's bytes, recovery id included. -/
theorem secpParse_spec (params : List Secp256k1SignatureVerifyParams)
    (hA : ∀ p ∈ params, p.ethAddress.length = 20)
    (hS : ∀ p ∈ params, p.signature.length = 64)
    (ht : secpTotalSize params ≤ 65535) :
    secpParseBuffer (secpEncodedSpec params)
      = some ⟨params.length, secpHeaders params,
          params.map fun e =>
            ⟨e.signature, e.recoveryId, e.ethAddress, e.message⟩⟩ := by
  have htx := ht
  rw [secpTotal_expand params] at htx
  have h0 : readUInt8 (secpEncodedSpec params) 0 = some params.length := by
    simp [secpEncodedSpec, readUInt8]
  have h1 : readSecpHeaders (secpEncodedSpec params) 1 params.length
      = some (secpHeaders params) := by
    have hshape : secpEncodedSpec params
        = [params.length]
          ++ (((secpHeadersFrom (secpAddrStart params) (secpSigStart params)
                (secpMsgStart params) params).map secpHeaderBytes).flatten
            ++ ((params.map fun p => p.ethAddress).flatten
              ++ ((params.map fun p => p.signature ++ [p.recoveryId]).flatten
                ++ (params.map fun p => p.message).flatten))) := by
      simp [secpEncodedSpec, secpHeaders, List.append_assoc]
    rw [hshape]
    exact readSecpHeaders_spec params [params.length] _ 1 (secpAddrStart params)
      (secpSigStart params) (secpMsgStart params) rfl
      (by simp only [secpSigStart, secpAddrStart]; omega)
      (by simp only [secpAddrStart]; omega)
      (by simp only [secpMsgStart, secpSigStart, secpAddrStart]; omega)
  have h2 : mapOrFail (secpExtractEntry (secpEncodedSpec params))
        (secpHeaders params)
      = some (params.map fun e =>
          ⟨e.signature, e.recoveryId, e.ethAddress, e.message⟩) := by
    apply mapOrFail_eq_some
    · rw [List.length_map, secpHeaders, length_secpHeadersFrom]
    · intro i a b hla hlb
      have hi : i < params.length := by
        have := getElem?_lt _ i a hla
        rwa [secpHeaders, length_secpHeadersFrom] at this
      have he : params[i]? = some params[i] := List.getElem?_eq_getElem hi
      have hav : (secpHeaders params)[i]?
          = some ⟨secpSigStart params + 65 * i, 0, secpAddrStart params + 20 * i,
              0, secpMsgStart params
                + ((params.take i).map fun q => q.message.length).sum,
              params[i].message.length, 0⟩ :=
        secpHeadersFrom_getElem params _ _ _ i params[i] he
      rw [hla] at hav
      have hbv : b = ⟨params[i].signature, params[i].recoveryId,
          params[i].ethAddress, params[i].message⟩ := by
        rw [List.getElem?_map, he] at hlb
        simpa using hlb.symm
      rw [Option.some_inj.mp hav, hbv]
      exact secpExtract_at params hA hS i params[i] he
  unfold secpParseBuffer
  rw [h0]
  simp only [Option.bind_eq_bind, Option.some_bind]
  rw [h1]
  simp only [Option.some_bind]
  rw [h2]
  simp only [Option.some_bind]
  rfl

/-! ### Totality and failure of the parsers, byte-0 preservation -/

theorem sum_take_lt {α : Type} (f : α → Nat) (l : List α) :
    ∀ (i : Nat) (e : α), l[i]? = some e →
    ((l.take i).map f).sum + f e ≤ (l.map f).sum := by
  induction l with
  | nil => intro i e he; simp at he
  | cons a tail ih =>
      intro i e he
      cases i with
      | zero =>
          simp only [List.getElem?_cons_zero, Option.some_inj] at he
          subst he
          simp
      | succ j =>
          simp only [List.getElem?_cons_succ] at he
          have := ih j e he
          simp only [List.take_succ_cons, List.map_cons, List.sum_cons]
          omega

theorem readUInt16LE_isSome (buf : List Nat) (off : Nat)
    (h : off + 2 ≤ buf.length) : ∃ v, readUInt16LE buf off = some v := by
  unfold readUInt16LE
  rw [List.getElem?_eq_getElem (by omega), List.getElem?_eq_getElem (by omega)]
  exact ⟨_, rfl⟩

theorem readUInt16LE_some_bound (buf : List Nat) (off v : Nat)
    (h : readUInt16LE buf off = some v) : off + 2 ≤ buf.length := by
  unfold readUInt16LE at h
  cases h0 : buf[off]? with
  | none => rw [h0] at h; exact Option.noConfusion h
  | some a =>
      rw [h0] at h
      cases h1 : buf[off + 1]? with
      | none => rw [h1] at h; exact Option.noConfusion h
      | some b =>
          have := getElem?_lt buf (off + 1) b h1
          omega

theorem readEdHeader_isSome (buf : List Nat) (base : Nat)
    (h : base + 14 ≤ buf.length) : ∃ hd, readEdHeader buf base = some hd := by
  obtain ⟨v1, e1⟩ := readUInt16LE_isSome buf base (by omega)
  obtain ⟨v2, e2⟩ := readUInt16LE_isSome buf (base + 2) (by omega)
  obtain ⟨v3, e3⟩ := readUInt16LE_isSome buf (base + 4) (by omega)
  obtain ⟨v4, e4⟩ := readUInt16LE_isSome buf (base + 6) (by omega)
  obtain ⟨v5, e5⟩ := readUInt16LE_isSome buf (base + 8) (by omega)
  obtain ⟨v6, e6⟩ := readUInt16LE_isSome buf (base + 10) (by omega)
  obtain ⟨v7, e7⟩ := readUInt16LE_isSome buf (base + 12) (by omega)
  refine ⟨⟨v1, v2, v3, v4, v5, v6, v7⟩, ?_⟩
  unfold readEdHeader
  rw [e1, e2, e3, e4, e5, e6, e7]
  rfl

theorem readEdHeader_some_bound (buf : List Nat) (base : Nat)
    (hd : Ed25519Header) (h : readEdHeader buf base = some hd) :
    base + 14 ≤ buf.length := by
  unfold readEdHeader at h
  cases h1 : readUInt16LE buf base with
  | none => rw [h1] at h; exact Option.noConfusion h
  | some v1 =>
      rw [h1] at h
      cases h2 : readUInt16LE buf (base + 2) with
      | none => rw [h2] at h; exact Option.noConfusion h
      | some v2 =>
          rw [h2] at h
          cases h3 : readUInt16LE buf (base + 4) with
          | none => rw [h3] at h; exact Option.noConfusion h
          | some v3 =>
              rw [h3] at h
              cases h4 : readUInt16LE buf (base + 6) with
              | none => rw [h4] at h; exact Option.noConfusion h
              | some v4 =>
                  rw [h4] at h
                  cases h5 : readUInt16LE buf (base + 8) with
                  | none => rw [h5] at h; exact Option.noConfusion h
                  | some v5 =>
                      rw [h5] at h
                      cases h6 : readUInt16LE buf (base + 10) with
                      | none => rw [h6] at h; exact Option.noConfusion h
                      | some v6 =>
                          rw [h6] at h
                          cases h7 : readUInt16LE buf (base + 12) with
                          | none => rw [h7] at h; exact Option.noConfusion h
                          | some v7 =>
                              have := readUInt16LE_some_bound buf (base + 12)
                                v7 h7
                              omega

theorem readEdHeaders_isSome (buf : List Nat) :
    ∀ (k base : Nat), base + 14 * k ≤ buf.length →
    ∃ hs, readEdHeaders buf base k = some hs := by
  intro k
  induction k with
  | zero => intro base h; exact ⟨[], rfl⟩
  | succ j ih =>
      intro base h
      obtain ⟨hd, ehd⟩ := readEdHeader_isSome buf base (by omega)
      obtain ⟨hs, ehs⟩ := ih (base + 14) (by omega)
      refine ⟨hd :: hs, ?_⟩
      simp only [readEdHeaders, ehd, ehs, Option.some_bind, Option.bind_eq_bind]
      rfl

theorem readEdHeaders_some_bound (buf : List Nat) :
    ∀ (k base : Nat) (hs : List Ed25519Header),
    readEdHeaders buf base k = some hs →
    k = 0 ∨ base + 14 * k ≤ buf.length := by
  intro k
  induction k with
  | zero => intro base hs h; exact Or.inl rfl
  | succ j ih =>
      intro base hs h
      simp only [readEdHeaders, Option.bind_eq_bind, Option.bind_eq_some] at h
      obtain ⟨hd, ehd, rest, erest, _⟩ := h
      have hb := readEdHeader_some_bound buf base hd ehd
      rcases ih (base + 14) rest erest with h0 | hbound
      · subst h0; right; omega
      · right; omega

/-- The ed25519 parser succeeds whenever the count byte, the padding byte
and the full header region are present — regardless of whether any offset
in the table points inside the buffer (the data slices clamp). -/
theorem ed25519Parse_total (buf : List Nat) (n : Nat)
    (h0 : buf[0]? = some n) (h : 2 + 14 * n ≤ buf.length) :
    ∃ r, ed25519ParseBuffer buf = some r := by
  have h1 : buf[1]? = some buf[1] := List.getElem?_eq_getElem (by omega)
  obtain ⟨hs, ehs⟩ := readEdHeaders_isSome buf n 2 (by omega)
  refine ⟨⟨n, buf[1], hs, hs.map (ed25519ExtractEntry buf)⟩, ?_⟩
  unfold ed25519ParseBuffer readUInt8
  rw [h0]
  simp only [Option.bind_eq_bind, Option.some_bind]
  rw [h1]
  simp only [Option.some_bind]
  rw [ehs]
  rfl

/-- Conversely, a successful ed25519 parse implies the header region was
fully present (so the only failures are out-of-range reads in the count,
padding or header region — never a classified error). -/
theorem ed25519Parse_some_bound (buf : List Nat) (r : Ed25519ParseResult)
    (h : ed25519ParseBuffer buf = some r) :
    r.numSignatures = 0 ∨ 2 + 14 * r.numSignatures ≤ buf.length := by
  unfold ed25519ParseBuffer readUInt8 at h
  cases h0 : buf[0]? with
  | none => rw [h0] at h; exact Option.noConfusion h
  | some n =>
      rw [h0] at h
      simp only [Option.bind_eq_bind, Option.some_bind] at h
      cases h1 : buf[1]? with
      | none => rw [h1] at h; exact Option.noConfusion h
      | some pad =>
          rw [h1] at h
          simp only [Option.some_bind] at h
          cases h2 : readEdHeaders buf 2 n with
          | none => rw [h2] at h; exact Option.noConfusion h
          | some hs =>
              rw [h2] at h
              simp only [Option.some_bind] at h
              have hn : r.numSignatures = n := by
                cases h; rfl
              rw [hn]
              exact readEdHeaders_some_bound buf n 2 hs h2

theorem overwrite_getElem_zero (buf src : List Nat) (off : Nat)
    (ho : 1 ≤ off) (hin : off + src.length ≤ buf.length) :
    (overwrite buf off src)[0]? = buf[0]? := by
  unfold overwrite
  cases buf with
  | nil => simp only [List.length_nil] at hin; omega
  | cons b bs =>
      obtain ⟨k, rfl⟩ : ∃ k, off = k + 1 := ⟨off - 1, by omega⟩
      simp [List.take_succ_cons]

theorem writeUInt16LE_preserve0 (buf : List Nat) (v off : Nat)
    (buf' : List Nat) (h : writeUInt16LE buf v off = some buf')
    (ho : 1 ≤ off) : buf'[0]? = buf[0]? := by
  unfold writeUInt16LE at h
  split at h
  · rename_i hc
    cases h
    exact overwrite_getElem_zero buf _ off ho hc.2
  · exact Option.noConfusion h

theorem writeUInt8_preserve0 (buf : List Nat) (v off : Nat)
    (buf' : List Nat) (h : writeUInt8 buf v off = some buf')
    (ho : 1 ≤ off) : buf'[0]? = buf[0]? := by
  unfold writeUInt8 at h
  split at h
  · rename_i hc
    cases h
    exact overwrite_getElem_zero buf _ off ho hc.2
  · exact Option.noConfusion h

theorem bufSet_preserve0 (buf src : List Nat) (off : Nat)
    (buf' : List Nat) (h : bufSet buf src off = some buf')
    (ho : 1 ≤ off) : buf'[0]? = buf[0]? := by
  unfold bufSet at h
  split at h
  · rename_i hc
    cases h
    exact overwrite_getElem_zero buf _ off ho hc
  · exact Option.noConfusion h

theorem writeEdHeaders_preserve0 (params : List Ed25519SignatureVerifyParams) :
    ∀ (buf buf' : List Nat) (hOff s p m : Nat), 1 ≤ hOff →
    writeEdHeaders buf hOff s p m params = some buf' →
    buf'[0]? = buf[0]? := by
  induction params with
  | nil =>
      intro buf buf' hOff s p m ho h
      simp only [writeEdHeaders, Option.some_inj] at h
      rw [h]
  | cons e rest ih =>
      intro buf buf' hOff s p m ho h
      simp only [writeEdHeaders, Option.bind_eq_bind, Option.bind_eq_some] at h
      obtain ⟨b1, e1, b2, e2, b3, e3, b4, e4, b5, e5, b6, e6, b7, e7, hrec⟩ := h
      rw [ih b7 buf' (hOff + 14) _ _ _ (by omega) hrec,
          writeUInt16LE_preserve0 b6 _ _ b7 e7 (by omega),
          writeUInt16LE_preserve0 b5 _ _ b6 e6 (by omega),
          writeUInt16LE_preserve0 b4 _ _ b5 e5 (by omega),
          writeUInt16LE_preserve0 b3 _ _ b4 e4 (by omega),
          writeUInt16LE_preserve0 b2 _ _ b3 e3 (by omega),
          writeUInt16LE_preserve0 b1 _ _ b2 e2 (by omega),
          writeUInt16LE_preserve0 buf _ _ b1 e1 (by omega)]

theorem writeEdData_preserve0 (params : List Ed25519SignatureVerifyParams) :
    ∀ (buf buf' : List Nat) (s p m : Nat), 1 ≤ s → 1 ≤ p → 1 ≤ m →
    writeEdData buf s p m params = some buf' →
    buf'[0]? = buf[0]? := by
  induction params with
  | nil =>
      intro buf buf' s p m hs hp hm h
      simp only [writeEdData, Option.some_inj] at h
      rw [h]
  | cons e rest ih =>
      intro buf buf' s p m hs hp hm h
      simp only [writeEdData, Option.bind_eq_bind, Option.bind_eq_some] at h
      obtain ⟨b1, e1, b2, e2, b3, e3, hrec⟩ := h
      rw [ih b3 buf' _ _ _ (by omega) (by omega) (by omega) hrec,
          bufSet_preserve0 b2 _ _ b3 e3 (by omega),
          bufSet_preserve0 b1 _ _ b2 e2 (by omega),
          bufSet_preserve0 buf _ _ b1 e1 (by omega)]

theorem writeSecpEntries_preserve0 (params : List Secp256k1SignatureVerifyParams) :
    ∀ (buf buf' : List Nat) (hOff a sg m : Nat),
    1 ≤ hOff → 1 ≤ a → 1 ≤ sg → 1 ≤ m →
    writeSecpEntries buf hOff a sg m params = some buf' →
    buf'[0]? = buf[0]? := by
  induction params with
  | nil =>
      intro buf buf' hOff a sg m h1 h2 h3 h4 h
      simp only [writeSecpEntries, Option.some_inj] at h
      rw [h]
  | cons e rest ih =>
      intro buf buf' hOff a sg m h1 h2 h3 h4 h
      simp only [writeSecpEntries, Option.bind_eq_bind, Option.bind_eq_some] at h
      obtain ⟨b1, e1, b2, e2, b3, e3, b4, e4, b5, e5, b6, e6, b7, e7, b8, e8,
        b9, e9, b10, e10, b11, e11, hrec⟩ := h
      rw [ih b11 buf' _ _ _ _ (by omega) (by omega) (by omega) (by omega) hrec,
          bufSet_preserve0 b10 _ _ b11 e11 (by omega),
          writeUInt8_preserve0 b9 _ _ b10 e10 (by omega),
          bufSet_preserve0 b8 _ _ b9 e9 (by omega),
          bufSet_preserve0 b7 _ _ b8 e8 (by omega),
          writeUInt8_preserve0 b6 _ _ b7 e7 (by omega),
          writeUInt16LE_preserve0 b5 _ _ b6 e6 (by omega),
          writeUInt16LE_preserve0 b4 _ _ b5 e5 (by omega),
          writeUInt8_preserve0 b3 _ _ b4 e4 (by omega),
          writeUInt16LE_preserve0 b2 _ _ b3 e3 (by omega),
          writeUInt8_preserve0 b1 _ _ b2 e2 (by omega),
          writeUInt16LE_preserve0 buf _ _ b1 e1 (by omega)]

theorem ed25519Encode_oversized (params : List Ed25519SignatureVerifyParams)
    (h : 255 < params.length) :
    ed25519CreateVerifySignaturesInstruction params = none := by
  simp only [ed25519CreateVerifySignaturesInstruction]
  rw [show writeUInt8 (List.replicate (2 + 14 * params.length
        + params.length * 64 + params.length * 32
        + (params.map fun p => p.message.length).sum) 0) params.length 0
      = none from by
    unfold writeUInt8
    rw [if_neg]
    rintro ⟨h1, _⟩
    omega]
  rfl

theorem secpEncode_oversized (params : List Secp256k1SignatureVerifyParams)
    (h : 255 < params.length) :
    secpCreateVerifySignaturesInstruction params = none := by
  simp only [secpCreateVerifySignaturesInstruction]
  rw [show writeUInt8 (List.replicate (1 + params.length * 11
        + params.length * 20 + params.length * (64 + 1)
        + (params.map fun p => p.message.length).sum) 0) params.length 0
      = none from by
    unfold writeUInt8
    rw [if_neg]
    rintro ⟨h1, _⟩
    omega]
  rfl

theorem ed25519Encode_count (params : List Ed25519SignatureVerifyParams)
    (buf : List Nat)
    (h : ed25519CreateVerifySignaturesInstruction params = some buf) :
    buf[0]? = some params.length := by
  simp only [ed25519CreateVerifySignaturesInstruction, Option.bind_eq_bind,
    Option.bind_eq_some] at h
  obtain ⟨b1, e1, b2, e2, b3, e3, hdata⟩ := h
  have hb1 : b1[0]? = some params.length := by
    unfold writeUInt8 at e1
    split at e1
    · cases e1
      unfold overwrite
      simp
    · exact Option.noConfusion e1
  rw [writeEdData_preserve0 params b3 buf _ _ _ (by omega) (by omega) (by omega)
        hdata,
      writeEdHeaders_preserve0 params b2 b3 2 _ _ _ (by omega) e3,
      writeUInt8_preserve0 b1 0 1 b2 e2 (by omega), hb1]

theorem secpEncode_count (params : List Secp256k1SignatureVerifyParams)
    (buf : List Nat)
    (h : secpCreateVerifySignaturesInstruction params = some buf) :
    buf[0]? = some params.length := by
  simp only [secpCreateVerifySignaturesInstruction, Option.bind_eq_bind,
    Option.bind_eq_some] at h
  obtain ⟨b1, e1, hdata⟩ := h
  have hb1 : b1[0]? = some params.length := by
    unfold writeUInt8 at e1
    split at e1
    · cases e1
      unfold overwrite
      simp
    · exact Option.noConfusion e1
  rw [writeSecpEntries_preserve0 params b1 buf 1 _ _ _ (by omega) (by omega)
        (by omega) (by omega) hdata, hb1]

/-! ### Execute verifier (modelled from the spec) -/

theorem execute_first_ok (keccak : List Nat → List Nat)
    (config : MultiSigConfig) (pda : List Nat) (params : ExecuteParams)
    (entries : List (List Nat × List Nat)) (n : Nat)
    (hpda : config.multisigPda = pda)
    (hnonce : params.nonce = config.nonce)
    (hval : validateEntries (createMultiSigTxHash keccak config.multisigPda
        config.nonce params.accounts params.data params.programId)
        config.owners entries params.signers [] = .ok n)
    (hthr : config.threshold ≤ n) :
    execute keccak config pda params (some entries)
      = .ok { config with nonce := config.nonce + 1 } := by
  unfold execute
  rw [if_neg (by simp [hpda]), if_neg (by simp [hnonce])]
  simp only [hval]
  rw [if_neg (by omega)]

theorem execute_replay_rejected (keccak : List Nat → List Nat)
    (config : MultiSigConfig) (pda : List Nat) (params : ExecuteParams)
    (verification : Option (List (List Nat × List Nat)))
    (hpda : config.multisigPda = pda)
    (hnonce : params.nonce = config.nonce) :
    execute keccak { config with nonce := config.nonce + 1 } pda params
        verification
      = .error .ErrNonceTooOld := by
  unfold execute
  rw [if_neg (by simp [hpda])]
  rw [if_pos (by simp [hnonce])]

/-! ## Theorems — digest builder -/

theorem numberToLEBytes_eq (n : Nat) :
    numberToLEBytes n
      = [n % 256, n / 256 % 256, n / 256 ^ 2 % 256, n / 256 ^ 3 % 256,
         n / 256 ^ 4 % 256, n / 256 ^ 5 % 256, n / 256 ^ 6 % 256,
         n / 256 ^ 7 % 256] := by
  norm_num [numberToLEBytes, List.range_succ]

theorem accounts_flatten_eq (accounts : List TransactionAccount) :
    ((accounts.map fun account =>
        [account.pubkey,
         [if account.isSigner then 1 else 0],
         [if account.isWritable then 1 else 0]]).flatten).flatten
      = (accounts.map fun account =>
          account.pubkey
            ++ [if account.isSigner then 1 else 0]
            ++ [if account.isWritable then 1 else 0]).flatten := by
  induction accounts with
  | nil => rfl
  | cons a rest ih =>
      simp only [List.map_cons, List.flatten_cons, List.flatten_append]
      rw [ih]
      simp [List.append_assoc]

theorem createMultiSigTxHash_eq (keccak : List Nat → List Nat)
    (multisigPda : List Nat) (nonce : Nat)
    (accounts : List TransactionAccount) (data : List Nat)
    (program : List Nat) :
    createMultiSigTxHash keccak multisigPda nonce accounts data program
      = keccak (digestPreimageSpec multisigPda nonce accounts data program) := by
  unfold createMultiSigTxHash digestPreimageSpec
  simp only [List.flatten_append, List.flatten_cons, List.flatten_nil,
    List.append_nil, List.append_assoc, numberToLEBytes_eq,
    accounts_flatten_eq]

/-! ## Claim theorems -/

/-- Claim C1: for every authority address, nonce, account list, target
program and instruction data, `createMultiSigTxHash` (identical in both
scheme variants) returns the keccak hash of the concatenation of the
32-byte authority, the nonce as 8 little-endian bytes, each account's
32-byte identity followed by one `is_signer` byte and one `is_writable`
byte, the 32-byte target program, then the raw instruction data — with no
length prefixes, and with zero-length instruction data still hashing the
remaining fields. -/
theorem claim_C1_digest_preimage (keccak : List Nat → List Nat)
    (multisigPda : List Nat) (nonce : Nat) (accounts : List TransactionAccount)
    (data program : List Nat)
    (hpda : multisigPda.length = 32)
    (hacc : ∀ a ∈ accounts, a.pubkey.length = 32)
    (hprog : program.length = 32) :
    createMultiSigTxHash keccak multisigPda nonce accounts data program
      = keccak (digestPreimageSpec multisigPda nonce accounts data program) :=
  createMultiSigTxHash_eq keccak multisigPda nonce accounts data program

/-- Witness for C1 at a concrete input (zero-length instruction data). -/
theorem claim_C1_digest_preimage_witness :
    (List.replicate 32 1).length = 32
      ∧ (∀ a ∈ [(⟨List.replicate 32 2, true, false⟩ : TransactionAccount)],
          a.pubkey.length = 32)
      ∧ (List.replicate 32 3).length = 32
      ∧ createMultiSigTxHash (fun l => l) (List.replicate 32 1) 5
          [⟨List.replicate 32 2, true, false⟩] [] (List.replicate 32 3)
        = (fun l => l) (digestPreimageSpec (List.replicate 32 1) 5
            [⟨List.replicate 32 2, true, false⟩] [] (List.replicate 32 3)) :=
  ⟨by decide, by decide, by decide,
    claim_C1_digest_preimage (fun l => l) (List.replicate 32 1) 5
      [⟨List.replicate 32 2, true, false⟩] [] (List.replicate 32 3)
      (by decide) (by decide) (by decide)⟩

/-- Claim C6: the digest builder is a pure deterministic function — it is
a mathematical function of its five inputs (the embedding has no state),
so equal inputs give equal 32-byte outputs, off-chain and on-chain alike. -/
theorem claim_C6_digest_deterministic (keccak : List Nat → List Nat)
    (pda1 pda2 : List Nat) (n1 n2 : Nat) (a1 a2 : List TransactionAccount)
    (d1 d2 p1 p2 : List Nat)
    (h1 : pda1 = pda2) (h2 : n1 = n2) (h3 : a1 = a2) (h4 : d1 = d2)
    (h5 : p1 = p2) :
    createMultiSigTxHash keccak pda1 n1 a1 d1 p1
      = createMultiSigTxHash keccak pda2 n2 a2 d2 p2 := by
  subst h1; subst h2; subst h3; subst h4; subst h5; rfl

/-- Witness for C6 at a concrete input. -/
theorem claim_C6_digest_deterministic_witness :
    ([1, 2] : List Nat) = [1, 2] ∧ (3 : Nat) = 3
      ∧ ([] : List TransactionAccount) = [] ∧ ([4] : List Nat) = [4]
      ∧ ([5] : List Nat) = [5]
      ∧ createMultiSigTxHash (fun l => l) [1, 2] 3 [] [4] [5]
        = createMultiSigTxHash (fun l => l) [1, 2] 3 [] [4] [5] :=
  ⟨rfl, rfl, rfl, rfl, rfl,
    claim_C6_digest_deterministic (fun l => l) [1, 2] [1, 2] 3 3 [] [] [4] [4]
      [5] [5] rfl rfl rfl rfl rfl⟩

/-- Claim C2: the native-curve encoder produces a buffer whose byte 0 is
`N`, byte 1 is the zero padding byte, followed by one 14-byte header per
entry whose little-endian u16 fields all carry the `0xffff`
same-instruction sentinel in the instruction-index slots, followed by all
signatures (64·N), all public keys (32·N), then all messages — and header
`i`'s offsets point exactly at entry `i`'s signature (`2+14N+64i`), public
key (`2+14N+64N+32i`) and message (`2+14N+64N+32N+Σ_{j<i}|mⱼ|`). -/
theorem claim_C2_ed25519_layout (params : List Ed25519SignatureVerifyParams)
    (hsig : ∀ p ∈ params, p.signature.length = 64)
    (hpk : ∀ p ∈ params, p.publicKey.length = 32)
    (hn : params.length ≤ 255)
    (ht : edTotalSize params ≤ 65535) :
    ed25519CreateVerifySignaturesInstruction params = some (edEncodedSpec params)
      ∧ ∀ (i : Nat) (e : Ed25519SignatureVerifyParams), params[i]? = some e →
          (edHeaders params)[i]?
            = some ⟨edDataStart params + 64 * i, 65535,
                edPubStart params + 32 * i, 65535,
                edMsgStart params
                  + ((params.take i).map fun q => q.message.length).sum,
                e.message.length, 65535⟩ :=
  ⟨ed25519Encode_eq params hsig hpk hn ht,
   fun i e he => edHeadersFrom_getElem params _ _ _ i e he⟩

/-- Witness for C2 at a concrete one-entry input. -/
theorem claim_C2_ed25519_layout_witness :
    (∀ p ∈ [(⟨List.replicate 32 8, [1, 2, 3], List.replicate 64 7⟩ :
        Ed25519SignatureVerifyParams)], p.signature.length = 64)
      ∧ (∀ p ∈ [(⟨List.replicate 32 8, [1, 2, 3], List.replicate 64 7⟩ :
          Ed25519SignatureVerifyParams)], p.publicKey.length = 32)
      ∧ ([(⟨List.replicate 32 8, [1, 2, 3], List.replicate 64 7⟩ :
          Ed25519SignatureVerifyParams)]).length ≤ 255
      ∧ edTotalSize [⟨List.replicate 32 8, [1, 2, 3], List.replicate 64 7⟩]
          ≤ 65535
      ∧ (ed25519CreateVerifySignaturesInstruction
            [⟨List.replicate 32 8, [1, 2, 3], List.replicate 64 7⟩]
          = some (edEncodedSpec
            [⟨List.replicate 32 8, [1, 2, 3], List.replicate 64 7⟩])
        ∧ ∀ (i : Nat) (e : Ed25519SignatureVerifyParams),
            ([(⟨List.replicate 32 8, [1, 2, 3], List.replicate 64 7⟩ :
              Ed25519SignatureVerifyParams)])[i]? = some e →
            (edHeaders [⟨List.replicate 32 8, [1, 2, 3],
                List.replicate 64 7⟩])[i]?
              = some ⟨edDataStart [⟨List.replicate 32 8, [1, 2, 3],
                    List.replicate 64 7⟩] + 64 * i, 65535,
                  edPubStart [⟨List.replicate 32 8, [1, 2, 3],
                    List.replicate 64 7⟩] + 32 * i, 65535,
                  edMsgStart [⟨List.replicate 32 8, [1, 2, 3],
                    List.replicate 64 7⟩]
                    + ((([(⟨List.replicate 32 8, [1, 2, 3],
                        List.replicate 64 7⟩ :
                        Ed25519SignatureVerifyParams)]).take i).map
                        fun q => q.message.length).sum,
                  e.message.length, 65535⟩) :=
  ⟨by decide, by decide, by decide, by decide,
    claim_C2_ed25519_layout [⟨List.replicate 32 8, [1, 2, 3],
      List.replicate 64 7⟩] (by decide) (by decide) (by decide) (by decide)⟩

/-- Claim C3: the externally-compatible encoder produces a buffer whose
byte 0 is `N` with no padding byte, followed by one 11-byte header per
entry at `1+11i` (u16 signature offset, u8 instruction index 0, u16
address offset, u8 index 0, u16 message offset, u16 message length, u8
index 0), followed by all addresses (20·N), all signature+recovery blocks
(65·N), then all messages — and header `i`'s offsets point exactly at
entry `i`'s data. -/
theorem claim_C3_secp_layout (params : List Secp256k1SignatureVerifyParams)
    (hA : ∀ p ∈ params, p.ethAddress.length = 20)
    (hS : ∀ p ∈ params, p.signature.length = 64)
    (hR : ∀ p ∈ params, p.recoveryId ≤ 255)
    (hn : params.length ≤ 255)
    (ht : secpTotalSize params ≤ 65535) :
    secpCreateVerifySignaturesInstruction params = some (secpEncodedSpec params)
      ∧ ∀ (i : Nat) (e : Secp256k1SignatureVerifyParams), params[i]? = some e →
          (secpHeaders params)[i]?
            = some ⟨secpSigStart params + 65 * i, 0,
                secpAddrStart params + 20 * i, 0,
                secpMsgStart params
                  + ((params.take i).map fun q => q.message.length).sum,
                e.message.length, 0⟩ :=
  ⟨secpEncode_eq params hA hS hR hn ht,
   fun i e he => secpHeadersFrom_getElem params _ _ _ i e he⟩

/-- Witness for C3 at a concrete one-entry input. -/
theorem claim_C3_secp_layout_witness :
    (∀ p ∈ [(⟨List.replicate 20 4, [9], List.replicate 64 5, 1⟩ :
        Secp256k1SignatureVerifyParams)], p.ethAddress.length = 20)
      ∧ (∀ p ∈ [(⟨List.replicate 20 4, [9], List.replicate 64 5, 1⟩ :
          Secp256k1SignatureVerifyParams)], p.signature.length = 64)
      ∧ (∀ p ∈ [(⟨List.replicate 20 4, [9], List.replicate 64 5, 1⟩ :
          Secp256k1SignatureVerifyParams)], p.recoveryId ≤ 255)
      ∧ ([(⟨List.replicate 20 4, [9], List.replicate 64 5, 1⟩ :
          Secp256k1SignatureVerifyParams)]).length ≤ 255
      ∧ secpTotalSize [⟨List.replicate 20 4, [9], List.replicate 64 5, 1⟩]
          ≤ 65535
      ∧ (secpCreateVerifySignaturesInstruction
            [⟨List.replicate 20 4, [9], List.replicate 64 5, 1⟩]
          = some (secpEncodedSpec
            [⟨List.replicate 20 4, [9], List.replicate 64 5, 1⟩])
        ∧ ∀ (i : Nat) (e : Secp256k1SignatureVerifyParams),
            ([(⟨List.replicate 20 4, [9], List.replicate 64 5, 1⟩ :
              Secp256k1SignatureVerifyParams)])[i]? = some e →
            (secpHeaders [⟨List.replicate 20 4, [9],
                List.replicate 64 5, 1⟩])[i]?
              = some ⟨secpSigStart [⟨List.replicate 20 4, [9],
                    List.replicate 64 5, 1⟩] + 65 * i, 0,
                  secpAddrStart [⟨List.replicate 20 4, [9],
                    List.replicate 64 5, 1⟩] + 20 * i, 0,
                  secpMsgStart [⟨List.replicate 20 4, [9],
                    List.replicate 64 5, 1⟩]
                    + ((([(⟨List.replicate 20 4, [9],
                        List.replicate 64 5, 1⟩ :
                        Secp256k1SignatureVerifyParams)]).take i).map
                        fun q => q.message.length).sum,
                  e.message.length, 0⟩) :=
  ⟨by decide, by decide, by decide, by decide, by decide,
    claim_C3_secp_layout [⟨List.replicate 20 4, [9], List.replicate 64 5, 1⟩]
      (by decide) (by decide) (by decide) (by decide) (by decide)⟩

/-- Claim C4: decode inverts encode for both codec variants — parsing the
encoded payload recovers every entry's signature, identity (public key or
address), message, and, for the secp variant, recovery id, by following
the offset table. -/
theorem claim_C4_roundtrip :
    (∀ params : List Ed25519SignatureVerifyParams,
      (∀ p ∈ params, p.signature.length = 64) →
      (∀ p ∈ params, p.publicKey.length = 32) →
      params.length ≤ 255 →
      edTotalSize params ≤ 65535 →
      ∃ buf r, ed25519CreateVerifySignaturesInstruction params = some buf
        ∧ ed25519ParseBuffer buf = some r
        ∧ r.numSignatures = params.length
        ∧ r.data = params.map fun e => ⟨e.signature, e.publicKey, e.message⟩)
    ∧ (∀ params : List Secp256k1SignatureVerifyParams,
      (∀ p ∈ params, p.ethAddress.length = 20) →
      (∀ p ∈ params, p.signature.length = 64) →
      (∀ p ∈ params, p.recoveryId ≤ 255) →
      params.length ≤ 255 →
      secpTotalSize params ≤ 65535 →
      ∃ buf r, secpCreateVerifySignaturesInstruction params = some buf
        ∧ secpParseBuffer buf = some r
        ∧ r.numSignatures = params.length
        ∧ r.data = params.map fun e =>
            ⟨e.signature, e.recoveryId, e.ethAddress, e.message⟩) := by
  constructor
  · intro params hsig hpk hn ht
    exact ⟨edEncodedSpec params, _, ed25519Encode_eq params hsig hpk hn ht,
      ed25519Parse_spec params hsig hpk ht, rfl, rfl⟩
  · intro params hA hS hR hn ht
    exact ⟨secpEncodedSpec params, _, secpEncode_eq params hA hS hR hn ht,
      secpParse_spec params hA hS ht, rfl, rfl⟩

/-- Witness for C4 at concrete one-entry inputs for both variants. -/
theorem claim_C4_roundtrip_witness :
    (∃ buf r, ed25519CreateVerifySignaturesInstruction
          [⟨List.replicate 32 8, [1, 2, 3], List.replicate 64 7⟩] = some buf
        ∧ ed25519ParseBuffer buf = some r
        ∧ r.numSignatures = 1
        ∧ r.data = [⟨List.replicate 64 7, List.replicate 32 8, [1, 2, 3]⟩])
      ∧ (∃ buf r, secpCreateVerifySignaturesInstruction
          [⟨List.replicate 20 4, [9], List.replicate 64 5, 1⟩] = some buf
        ∧ secpParseBuffer buf = some r
        ∧ r.numSignatures = 1
        ∧ r.data = [⟨List.replicate 64 5, 1, List.replicate 20 4, [9]⟩]) :=
  ⟨claim_C4_roundtrip.1 [⟨List.replicate 32 8, [1, 2, 3], List.replicate 64 7⟩]
      (by decide) (by decide) (by decide) (by decide),
   claim_C4_roundtrip.2 [⟨List.replicate 20 4, [9], List.replicate 64 5, 1⟩]
      (by decide) (by decide) (by decide) (by decide) (by decide)⟩

/-- Claim C5: `BatchSecp256k1Signer.sign` hashes the message with
keccak-256, signs that hash, and returns the 64-byte `r ∥ s` signature with
the recovery indicator (`yParity`) as a separate byte; and
`signAndCreateVerifySignaturesInstruction` derives the 20-byte address from
the key's public key (ethers wallet) and encodes it into the table entry
together with that signature and message. -/
theorem claim_C5_sign (keccak : List Nat → List Nat)
    (ecdsaSign : List Nat → List Nat → EcdsaSig)
    (ethAddressOf : List Nat → List Nat)
    (hr : ∀ k h, (ecdsaSign k h).r.length = 32)
    (hs : ∀ k h, (ecdsaSign k h).s.length = 32)
    (hy : ∀ k h, (ecdsaSign k h).yParity ≤ 255)
    (haddr : ∀ k, (ethAddressOf k).length = 20) :
    (∀ message privateKey : List Nat,
      secpSign keccak ecdsaSign message privateKey
          = ((ecdsaSign privateKey (keccak message)).r
              ++ (ecdsaSign privateKey (keccak message)).s,
             (ecdsaSign privateKey (keccak message)).yParity)
        ∧ (secpSign keccak ecdsaSign message privateKey).1.length = 64)
    ∧ (∀ params : List Secp256k1SignAndVerifyParams,
        params.length ≤ 255 →
        secpTotalSize (params.map fun item =>
          ⟨ethAddressOf item.privateKey, item.message,
            (secpSign keccak ecdsaSign item.message item.privateKey).1,
            (secpSign keccak ecdsaSign item.message item.privateKey).2⟩)
          ≤ 65535 →
        secpSignAndCreateVerifySignaturesInstruction keccak ecdsaSign
            ethAddressOf params
          = some (secpEncodedSpec (params.map fun item =>
              ⟨ethAddressOf item.privateKey, item.message,
                (secpSign keccak ecdsaSign item.message item.privateKey).1,
                (secpSign keccak ecdsaSign item.message item.privateKey).2⟩))) := by
  constructor
  · intro message privateKey
    refine ⟨rfl, ?_⟩
    simp only [secpSign, List.length_append, hr, hs]
  · intro params hn ht
    unfold secpSignAndCreateVerifySignaturesInstruction
    exact secpEncode_eq _
      (by intro p hp
          simp only [List.mem_map] at hp
          obtain ⟨item, _, rfl⟩ := hp
          exact haddr item.privateKey)
      (by intro p hp
          simp only [List.mem_map] at hp
          obtain ⟨item, _, rfl⟩ := hp
          simp only [secpSign, List.length_append, hr, hs])
      (by intro p hp
          simp only [List.mem_map] at hp
          obtain ⟨item, _, rfl⟩ := hp
          exact hy item.privateKey _)
      (by simpa using hn) ht

/-- Witness for C5 with concrete dummy externals and a concrete entry. -/
theorem claim_C5_sign_witness :
    (∀ k h : List Nat,
        ((fun (_ _ : List Nat) =>
          (⟨List.replicate 32 1, List.replicate 32 2, 1⟩ : EcdsaSig)) k h).r.length
          = 32)
      ∧ ((∀ message privateKey : List Nat,
          secpSign (fun _ => List.replicate 32 0)
              (fun _ _ => ⟨List.replicate 32 1, List.replicate 32 2, 1⟩)
              message privateKey
            = (((fun (_ _ : List Nat) =>
                  (⟨List.replicate 32 1, List.replicate 32 2, 1⟩ : EcdsaSig))
                  privateKey ((fun _ => List.replicate 32 0) message)).r
                ++ ((fun (_ _ : List Nat) =>
                  (⟨List.replicate 32 1, List.replicate 32 2, 1⟩ : EcdsaSig))
                  privateKey ((fun _ => List.replicate 32 0) message)).s,
               ((fun (_ _ : List Nat) =>
                  (⟨List.replicate 32 1, List.replicate 32 2, 1⟩ : EcdsaSig))
                  privateKey ((fun _ => List.replicate 32 0) message)).yParity)
            ∧ (secpSign (fun _ => List.replicate 32 0)
                (fun _ _ => ⟨List.replicate 32 1, List.replicate 32 2, 1⟩)
                message privateKey).1.length = 64)
        ∧ (∀ params : List Secp256k1SignAndVerifyParams,
            params.length ≤ 255 →
            secpTotalSize (params.map fun item =>
              ⟨(fun _ => List.replicate 20 3) item.privateKey, item.message,
                (secpSign (fun _ => List.replicate 32 0)
                  (fun _ _ => ⟨List.replicate 32 1, List.replicate 32 2, 1⟩)
                  item.message item.privateKey).1,
                (secpSign (fun _ => List.replicate 32 0)
                  (fun _ _ => ⟨List.replicate 32 1, List.replicate 32 2, 1⟩)
                  item.message item.privateKey).2⟩) ≤ 65535 →
            secpSignAndCreateVerifySignaturesInstruction
                (fun _ => List.replicate 32 0)
                (fun _ _ => ⟨List.replicate 32 1, List.replicate 32 2, 1⟩)
                (fun _ => List.replicate 20 3) params
              = some (secpEncodedSpec (params.map fun item =>
                  ⟨(fun _ => List.replicate 20 3) item.privateKey, item.message,
                    (secpSign (fun _ => List.replicate 32 0)
                      (fun _ _ => ⟨List.replicate 32 1, List.replicate 32 2, 1⟩)
                      item.message item.privateKey).1,
                    (secpSign (fun _ => List.replicate 32 0)
                      (fun _ _ => ⟨List.replicate 32 1, List.replicate 32 2, 1⟩)
                      item.message item.privateKey).2⟩)))) :=
  ⟨fun k h => rfl,
   claim_C5_sign (fun _ => List.replicate 32 0)
     (fun _ _ => ⟨List.replicate 32 1, List.replicate 32 2, 1⟩)
     (fun _ => List.replicate 20 3)
     (fun k h => rfl) (fun k h => rfl) (fun k h => by simp)
     (fun k => rfl)⟩

/-- Claim C7 counterexample: a malformed buffer whose header table points
far outside the buffer is parsed successfully (the clamping `subarray`
silently returns empty slices) instead of failing with a distinct
malformed-verification-data error; while a buffer whose header region is
truncated makes the parser throw an unclassified out-of-range error
(modelled `none`), again not a classified error.  The secp parser likewise
accepts an out-of-range message offset. -/
theorem claim_C7_counterexample :
    ed25519ParseBuffer
        [1, 0, 200, 0, 255, 255, 200, 0, 255, 255, 200, 0, 5, 0, 255, 255]
      = some ⟨1, 0, [⟨200, 65535, 200, 65535, 200, 5, 65535⟩], [⟨[], [], []⟩]⟩
      ∧ 200 + 64 > (List.length ([1, 0, 200, 0, 255, 255, 200, 0, 255, 255,
          200, 0, 5, 0, 255, 255] : List Nat))
      ∧ ed25519ParseBuffer [2] = none
      ∧ (secpParseBuffer ([1, 0, 0, 0, 0, 0, 0, 200, 0, 5, 0, 0]
          ++ List.replicate 53 0)).isSome = true
      ∧ 200 + 5 > (List.length (([1, 0, 0, 0, 0, 0, 0, 200, 0, 5, 0, 0]
          ++ List.replicate 53 0) : List Nat)) := by
  refine ⟨by decide, by decide, by decide, by decide, by decide⟩

/-- Claim C7 as amended: the ed25519 parser succeeds exactly when the
count byte, padding byte and full `14·N`-byte header region are present —
offsets pointing outside the buffer are silently clamped rather than
rejected, and a truncated header region yields an unclassified
out-of-range failure (`none`), not a distinct malformed-data error. -/
theorem claim_C7_parse_amended :
    (∀ (buf : List Nat) (n : Nat), buf[0]? = some n →
      2 + 14 * n ≤ buf.length → ∃ r, ed25519ParseBuffer buf = some r)
      ∧ (∀ (buf : List Nat) (r : Ed25519ParseResult),
        ed25519ParseBuffer buf = some r →
        r.numSignatures = 0 ∨ 2 + 14 * r.numSignatures ≤ buf.length) :=
  ⟨ed25519Parse_total, ed25519Parse_some_bound⟩

/-- Witness for the amended C7 at a concrete buffer (count 1, full header
present, all offsets out of range). -/
theorem claim_C7_parse_amended_witness :
    ([1, 0, 200, 0, 255, 255, 200, 0, 255, 255, 200, 0, 5, 0, 255, 255] :
        List Nat)[0]? = some 1
      ∧ 2 + 14 * 1 ≤ (List.length ([1, 0, 200, 0, 255, 255, 200, 0, 255, 255,
          200, 0, 5, 0, 255, 255] : List Nat))
      ∧ (∃ r, ed25519ParseBuffer [1, 0, 200, 0, 255, 255, 200, 0, 255, 255,
          200, 0, 5, 0, 255, 255] = some r) :=
  ⟨by decide, by decide,
   claim_C7_parse_amended.1
     [1, 0, 200, 0, 255, 255, 200, 0, 255, 255, 200, 0, 5, 0, 255, 255] 1
     (by decide) (by decide)⟩

/-- Claim C8 (modelled from the spec, the on-chain program not being under
the TypeScript sources): with the derived address bound, the exact current
nonce, and a threshold of valid owner signatures over the recomputed
digest, `execute` succeeds and its sole state change is `nonce := nonce+1`;
re-submitting the identical request against the updated record is rejected
with the `ErrNonceTooOld` error the tests assert, and a rejection carries
no successor state (the runtime rolls the transaction back). -/
theorem claim_C8_nonce_replay (keccak : List Nat → List Nat)
    (config : MultiSigConfig) (pda : List Nat) (params : ExecuteParams)
    (entries : List (List Nat × List Nat)) (n : Nat)
    (hpda : config.multisigPda = pda)
    (hnonce : params.nonce = config.nonce)
    (hval : validateEntries (createMultiSigTxHash keccak config.multisigPda
        config.nonce params.accounts params.data params.programId)
        config.owners entries params.signers [] = .ok n)
    (hthr : config.threshold ≤ n) :
    execute keccak config pda params (some entries)
        = .ok { config with nonce := config.nonce + 1 }
      ∧ execute keccak { config with nonce := config.nonce + 1 } pda params
          (some entries)
        = .error .ErrNonceTooOld :=
  ⟨execute_first_ok keccak config pda params entries n hpda hnonce hval hthr,
   execute_replay_rejected keccak config pda params (some entries) hpda hnonce⟩

/-- Witness for C8 at a concrete single-owner configuration. -/
theorem claim_C8_nonce_replay_witness :
    (⟨[[1]], 1, 0, [9]⟩ : MultiSigConfig).multisigPda = [9]
      ∧ (⟨[3], [], [2], [[1]], 0⟩ : ExecuteParams).nonce
          = (⟨[[1]], 1, 0, [9]⟩ : MultiSigConfig).nonce
      ∧ validateEntries (createMultiSigTxHash (fun _ => [7])
            (⟨[[1]], 1, 0, [9]⟩ : MultiSigConfig).multisigPda
            (⟨[[1]], 1, 0, [9]⟩ : MultiSigConfig).nonce
            (⟨[3], [], [2], [[1]], 0⟩ : ExecuteParams).accounts
            (⟨[3], [], [2], [[1]], 0⟩ : ExecuteParams).data
            (⟨[3], [], [2], [[1]], 0⟩ : ExecuteParams).programId)
          (⟨[[1]], 1, 0, [9]⟩ : MultiSigConfig).owners [([1], [7])]
          (⟨[3], [], [2], [[1]], 0⟩ : ExecuteParams).signers [] = .ok 1
      ∧ (⟨[[1]], 1, 0, [9]⟩ : MultiSigConfig).threshold ≤ 1
      ∧ (execute (fun _ => [7]) ⟨[[1]], 1, 0, [9]⟩ [9] ⟨[3], [], [2], [[1]], 0⟩
            (some [([1], [7])])
          = .ok { (⟨[[1]], 1, 0, [9]⟩ : MultiSigConfig) with
              nonce := (⟨[[1]], 1, 0, [9]⟩ : MultiSigConfig).nonce + 1 }
        ∧ execute (fun _ => [7])
            { (⟨[[1]], 1, 0, [9]⟩ : MultiSigConfig) with
              nonce := (⟨[[1]], 1, 0, [9]⟩ : MultiSigConfig).nonce + 1 }
            [9] ⟨[3], [], [2], [[1]], 0⟩ (some [([1], [7])])
          = .error .ErrNonceTooOld) :=
  ⟨rfl, rfl, rfl, by decide,
   claim_C8_nonce_replay (fun _ => [7]) ⟨[[1]], 1, 0, [9]⟩ [9]
     ⟨[3], [], [2], [[1]], 0⟩ [([1], [7])] 1 rfl rfl rfl (by decide)⟩

/-- Claim C9: every payload either encoder produces is self-contained and
in-bounds — its total length is exactly the header size plus the sizes of
all signatures, identities and messages (`2 + 14N + 64N + 32N + Σ|mᵢ|`
native; `1 + 11N + 20N + 65N + Σ|mᵢ|` secp), and every offset written into
any header row plus the length of the field it points to is at most the
buffer length, so decoding an encoder output never reads outside the
buffer. -/
theorem claim_C9_in_bounds :
    (∀ params : List Ed25519SignatureVerifyParams,
      (∀ p ∈ params, p.signature.length = 64) →
      (∀ p ∈ params, p.publicKey.length = 32) →
      params.length ≤ 255 → edTotalSize params ≤ 65535 →
      ∃ buf, ed25519CreateVerifySignaturesInstruction params = some buf
        ∧ buf.length = 2 + 14 * params.length + 64 * params.length
            + 32 * params.length + (params.map fun p => p.message.length).sum
        ∧ ∀ (i : Nat) (e : Ed25519SignatureVerifyParams),
            params[i]? = some e →
            ∃ h, (edHeaders params)[i]? = some h
              ∧ h.sigOffset + 64 ≤ buf.length
              ∧ h.pubOffset + 32 ≤ buf.length
              ∧ h.msgOffset + h.msgSize ≤ buf.length)
    ∧ (∀ params : List Secp256k1SignatureVerifyParams,
      (∀ p ∈ params, p.ethAddress.length = 20) →
      (∀ p ∈ params, p.signature.length = 64) →
      (∀ p ∈ params, p.recoveryId ≤ 255) →
      params.length ≤ 255 → secpTotalSize params ≤ 65535 →
      ∃ buf, secpCreateVerifySignaturesInstruction params = some buf
        ∧ buf.length = 1 + 11 * params.length + 20 * params.length
            + 65 * params.length + (params.map fun p => p.message.length).sum
        ∧ ∀ (i : Nat) (e : Secp256k1SignatureVerifyParams),
            params[i]? = some e →
            ∃ h, (secpHeaders params)[i]? = some h
              ∧ h.sigOffset + 65 ≤ buf.length
              ∧ h.addrOffset + 20 ≤ buf.length
              ∧ h.msgOffset + h.msgSize ≤ buf.length) := by
  constructor
  · intro params hsig hpk hn ht
    refine ⟨edEncodedSpec params, ed25519Encode_eq params hsig hpk hn ht, ?_, ?_⟩
    · rw [length_edEncodedSpec params hsig hpk, edTotal_expand]
    · intro i e he
      have hi : i < params.length := getElem?_lt params i e he
      have hsum := sum_take_lt (fun q => q.message.length) params i e he
      refine ⟨⟨edDataStart params + 64 * i, 65535, edPubStart params + 32 * i,
          65535, edMsgStart params
            + ((params.take i).map fun q => q.message.length).sum,
          e.message.length, 65535⟩,
        edHeadersFrom_getElem params (edDataStart params) (edPubStart params)
          (edMsgStart params) i e he, ?_, ?_, ?_⟩
      all_goals
        rw [length_edEncodedSpec params hsig hpk]
        dsimp only
        simp only [edTotalSize, edMsgStart, edPubStart, edDataStart] at *
        omega
  · intro params hA hS hR hn ht
    refine ⟨secpEncodedSpec params,
      secpEncode_eq params hA hS hR hn ht, ?_, ?_⟩
    · rw [length_secpEncodedSpec params hA hS, secpTotal_expand]
    · intro i e he
      have hi : i < params.length := getElem?_lt params i e he
      have hsum := sum_take_lt (fun q => q.message.length) params i e he
      refine ⟨⟨secpSigStart params + 65 * i, 0, secpAddrStart params + 20 * i,
          0, secpMsgStart params
            + ((params.take i).map fun q => q.message.length).sum,
          e.message.length, 0⟩,
        secpHeadersFrom_getElem params (secpAddrStart params)
          (secpSigStart params) (secpMsgStart params) i e he, ?_, ?_, ?_⟩
      all_goals
        rw [length_secpEncodedSpec params hA hS]
        dsimp only
        simp only [secpTotalSize, secpMsgStart, secpSigStart,
          secpAddrStart] at *
        omega

/-- Witness for C9 at concrete single-entry inputs for both codecs. -/
theorem claim_C9_in_bounds_witness :
    ((∀ p ∈ ([⟨List.replicate 32 8, [1, 2, 3], List.replicate 64 7⟩] :
        List Ed25519SignatureVerifyParams), p.signature.length = 64)
      ∧ edTotalSize [⟨List.replicate 32 8, [1, 2, 3], List.replicate 64 7⟩]
          ≤ 65535
      ∧ ∃ buf, ed25519CreateVerifySignaturesInstruction
            [⟨List.replicate 32 8, [1, 2, 3], List.replicate 64 7⟩] = some buf
          ∧ buf.length = 2 + 14 * 1 + 64 * 1 + 32 * 1 + 3
          ∧ ∀ (i : Nat) (e : Ed25519SignatureVerifyParams),
              ([⟨List.replicate 32 8, [1, 2, 3], List.replicate 64 7⟩] :
                List Ed25519SignatureVerifyParams)[i]? = some e →
              ∃ h, (edHeaders [⟨List.replicate 32 8, [1, 2, 3],
                    List.replicate 64 7⟩])[i]? = some h
                ∧ h.sigOffset + 64 ≤ buf.length
                ∧ h.pubOffset + 32 ≤ buf.length
                ∧ h.msgOffset + h.msgSize ≤ buf.length)
    ∧ (∃ buf, secpCreateVerifySignaturesInstruction
          [⟨List.replicate 20 4, [9], List.replicate 64 5, 1⟩] = some buf
        ∧ buf.length = 1 + 11 * 1 + 20 * 1 + 65 * 1 + 1
        ∧ ∀ (i : Nat) (e : Secp256k1SignatureVerifyParams),
            ([⟨List.replicate 20 4, [9], List.replicate 64 5, 1⟩] :
              List Secp256k1SignatureVerifyParams)[i]? = some e →
            ∃ h, (secpHeaders [⟨List.replicate 20 4, [9],
                  List.replicate 64 5, 1⟩])[i]? = some h
              ∧ h.sigOffset + 65 ≤ buf.length
              ∧ h.addrOffset + 20 ≤ buf.length
              ∧ h.msgOffset + h.msgSize ≤ buf.length) := by
  refine ⟨⟨by decide, by decide, ?_⟩, ?_⟩
  · have := claim_C9_in_bounds.1
      [⟨List.replicate 32 8, [1, 2, 3], List.replicate 64 7⟩]
      (by decide) (by decide) (by decide) (by decide)
    simpa using this
  · have := claim_C9_in_bounds.2
      [⟨List.replicate 20 4, [9], List.replicate 64 5, 1⟩]
      (by decide) (by decide) (by decide) (by decide) (by decide)
    simpa using this

/-- Claim C10: both encoders reject oversized batches at the public
interface — with more than 255 entries the initial `u8` count write throws
(modelled `none`) instead of silently truncating, and for at most 255
entries the count byte of any successful encoding equals the entry-list
length exactly. -/
theorem claim_C10_count_byte :
    (∀ params : List Ed25519SignatureVerifyParams, 255 < params.length →
      ed25519CreateVerifySignaturesInstruction params = none)
    ∧ (∀ (params : List Ed25519SignatureVerifyParams) (buf : List Nat),
        ed25519CreateVerifySignaturesInstruction params = some buf →
        buf[0]? = some params.length)
    ∧ (∀ params : List Secp256k1SignatureVerifyParams, 255 < params.length →
        secpCreateVerifySignaturesInstruction params = none)
    ∧ (∀ (params : List Secp256k1SignatureVerifyParams) (buf : List Nat),
        secpCreateVerifySignaturesInstruction params = some buf →
        buf[0]? = some params.length) :=
  ⟨ed25519Encode_oversized, ed25519Encode_count,
   secpEncode_oversized, secpEncode_count⟩

/-- Witness for C10: a 256-entry batch is rejected, and the one-entry
success has count byte 1. -/
theorem claim_C10_count_byte_witness :
    (255 < (List.replicate 256
        (⟨[], [], []⟩ : Ed25519SignatureVerifyParams)).length
      ∧ ed25519CreateVerifySignaturesInstruction
          (List.replicate 256 ⟨[], [], []⟩) = none)
    ∧ (ed25519CreateVerifySignaturesInstruction
          [⟨List.replicate 32 8, [1, 2, 3], List.replicate 64 7⟩]
        = some (edEncodedSpec
            [⟨List.replicate 32 8, [1, 2, 3], List.replicate 64 7⟩])
      ∧ (edEncodedSpec
          [⟨List.replicate 32 8, [1, 2, 3], List.replicate 64 7⟩])[0]?
        = some 1) := by
  refine ⟨⟨by decide, claim_C10_count_byte.1 _ (by decide)⟩, ?_⟩
  have henc : ed25519CreateVerifySignaturesInstruction
        [⟨List.replicate 32 8, [1, 2, 3], List.replicate 64 7⟩]
      = some (edEncodedSpec
          [⟨List.replicate 32 8, [1, 2, 3], List.replicate 64 7⟩]) := by
    decide
  exact ⟨henc, by
    have := claim_C10_count_byte.2.1 _ _ henc
    simpa using this⟩

end SmolMultisig
